import Mathlib

/-!
Verification development for the graph-based workflow execution engine
(`src/orchestration/workflow-orchestrator.ts`, `src/services/workflow.service.ts`,
`src/utils/template-parser.ts` and the `TemplateParser` variant in
`unnamed/part_002`).

Modelling conventions:
* JavaScript values are modelled by the inductive `JValue` below, with `undef`
  for `undefined` kept distinct from `null`.  Arrays and objects are modelled
  by the mutually inductive `JList` / `JObj` so that all recursions are
  structural and kernel-reducible.  JS numbers are modelled as integers
  (every number appearing in the claims is an integer).
* In-place mutation of the shared `state` object is modelled by explicit
  state passing: every orchestrator function returns the state object's
  final contents alongside its result, mirroring the fact that in the source
  all of these functions mutate one shared object.
* Unbounded recursion (the traversal `while` loop and nested sub-workflow
  recursion) is bounded by an explicit `fuel : Nat` argument.  Exhausted fuel
  produces the distinguished error `fuelErr`, which is unreachable whenever
  the fuel exceeds the work actually performed; theorems about successful
  runs are unaffected, and concrete runs are evaluated with ample fuel.
* External collaborators (the executor factory, the workflow repository and
  the `expr-eval` based template expansion used on `workflow_executor`
  configs) are parameters of the model (`Env`), exactly as they are injected
  dependencies in the source.  The rules-machine programs attached to
  `setState` entries and dynamic edges are modelled by their denotations,
  functions `RuleCtx → Except String JValue`.
-/

/- JavaScript-style values: `undefined`, `null`, booleans, (integer) numbers,
strings, arrays and plain objects. -/
mutual
inductive JValue where
  | null : JValue
  | undef : JValue
  | bool (b : Bool) : JValue
  | num (n : Int) : JValue
  | str (s : String) : JValue
  | arr (elems : JList) : JValue
  | obj (entries : JObj) : JValue
  deriving DecidableEq, Repr
inductive JList where
  | nil : JList
  | cons (hd : JValue) (tl : JList) : JList
  deriving DecidableEq, Repr
inductive JObj where
  | nil : JObj
  | cons (k : String) (v : JValue) (tl : JObj) : JObj
  deriving DecidableEq, Repr
end

deriving instance DecidableEq for Except

/-- Build a `JList` from a Lean list (notation helper for concrete values). -/
def JList.ofList : List JValue → JList
  | [] => .nil
  | x :: xs => .cons x (JList.ofList xs)

/-- Build a `JObj` from a Lean association list (notation helper). -/
def JObj.ofList : List (String × JValue) → JObj
  | [] => .nil
  | (k, v) :: xs => .cons k v (JObj.ofList xs)

/-- Array literal helper. -/
def jarr (xs : List JValue) : JValue := .arr (JList.ofList xs)

/-- Object literal helper. -/
def jobj (kvs : List (String × JValue)) : JValue := .obj (JObj.ofList kvs)

/-- Number of entries of a `JList` (JS `Array.prototype.length`). -/
def JList.length : JList → Nat
  | .nil => 0
  | .cons _ t => t.length + 1

/-- Element at an index of a `JList`. -/
def JList.get? : JList → Nat → Option JValue
  | .nil, _ => none
  | .cons h _, 0 => some h
  | .cons _ t, n + 1 => t.get? n

/-- First value bound to a key in a `JObj` (objects built by `JObj.set` have
unique keys, matching JS objects). -/
def JObj.find? : JObj → String → Option JValue
  | .nil, _ => none
  | .cons k' v t, k => if k' = k then some v else t.find? k

/-- JS property assignment `o[k] = v`: an existing key keeps its position and
gets the new value, a new key is appended. -/
def JObj.set : JObj → String → JValue → JObj
  | .nil, k, v => .cons k v .nil
  | .cons k' v' t, k, v => if k' = k then .cons k' v t else .cons k' v' (t.set k v)

/-- Property read on a `JValue` known to be an object, `undefined` otherwise
(used for the fixed-shape context objects the orchestrator builds). -/
def jGet (v : JValue) (k : String) : JValue :=
  match v with
  | .obj o => (o.find? k).getD .undef
  | _ => JValue.undef

/-- JS falsiness: `undefined`, `null`, `false`, `0` and `""` are falsy. -/
def jFalsy : JValue → Bool
  | .undef => true
  | .null => true
  | .bool b => !b
  | .num n => n = 0
  | .str s => s = ""
  | _ => false

/-- JS `a || b`. -/
def jOr (a b : JValue) : JValue := if jFalsy a then b else a

/-- JS `typeof` (note `typeof null` is `"object"`). -/
def jsTypeof : JValue → String
  | .undef => "undefined"
  | .null => "object"
  | .bool _ => "boolean"
  | .num _ => "number"
  | .str _ => "string"
  | .arr _ => "object"
  | .obj _ => "object"

/-- Decimal digit character (kernel-reducible numeral printing helper). -/
def digitChar (n : Nat) : Char := Char.ofNat (48 + n)

/-- Decimal digits of a natural number, with explicit fuel (adequate from
`n + 1` on). -/
def natToCharsAux : Nat → Nat → List Char
  | 0, _ => []
  | f + 1, n => if n < 10 then [digitChar n] else natToCharsAux f (n / 10) ++ [digitChar (n % 10)]

/-- Decimal numeral of a natural number. -/
def natToString (n : Nat) : String := ⟨natToCharsAux (n + 1) n⟩

/-- Decimal numeral of an integer (JS `String(number)` for integral values). -/
def intToString (n : Int) : String :=
  if n < 0 then "-" ++ natToString n.natAbs else natToString n.natAbs

/- JS `String(v)` coercion.  Arrays stringify by joining their elements with
commas, `null`/`undefined` elements becoming empty; plain objects stringify
to `[object Object]`. -/
mutual
def jsToString : JValue → String
  | .null => "null"
  | .undef => "undefined"
  | .bool true => "true"
  | .bool false => "false"
  | .num n => intToString n
  | .str s => s
  | .arr xs => jsArrJoin xs
  | .obj _ => "[object Object]"
def jsArrJoin : JList → String
  | .nil => ""
  | .cons h .nil =>
    match h with
    | .null => ""
    | .undef => ""
    | v => jsToString v
  | .cons h t =>
    (match h with
     | .null => ""
     | .undef => ""
     | v => jsToString v) ++ "," ++ jsArrJoin t
end

/-- ASCII portion of the whitespace class recognised by JS `String.trim`
(the claims involve no exotic Unicode whitespace). -/
def isJsSpace (c : Char) : Bool :=
  c == ' ' || c == '\t' || c == '\n' || c == '\r' || c == '\x0b' || c == '\x0c'

/-- `String.prototype.trim` on a character list. -/
def jsTrimList (l : List Char) : List Char :=
  ((l.dropWhile isJsSpace).reverse.dropWhile isJsSpace).reverse

/-- `String.prototype.trim`. -/
def jsTrim (s : String) : String := ⟨jsTrimList s.data⟩

/-!
Template parser, modelling the `TemplateParser` class of `unnamed/part_002`
(the self-contained variant whose path resolution is implemented in the
repository itself; the `src/utils/template-parser.ts` variant delegates
expression evaluation to the external `expr-eval` library and is modelled
abstractly where the orchestrator consumes it).
-/

/-- Digits of a decimal numeral to a `Nat` (JS `parseInt` on an all-digit
string). -/
def digitsToNat (l : List Char) : Nat :=
  l.foldl (fun acc c => acc * 10 + (c.toNat - '0'.toNat)) 0

/-- Greedy match of the regex `^(.+)\[(\d+)\]$` against a property part:
splits `prop[idx]` at the last bracket group, requiring a nonempty property
name and a nonempty digit run. -/
def parseArrayAccess (part : List Char) : Option (List Char × Nat) :=
  match part.reverse with
  | ']' :: rev =>
    let ds := rev.takeWhile (fun c => c.isDigit)
    if ds = [] then none
    else
      match rev.drop ds.length with
      | '[' :: revProp =>
        if revProp = [] then none
        else some (revProp.reverse, digitsToNat ds.reverse)
      | _ => none
  | _ => none

/-- JS bracket/property access `current[part]` as used by
`resolvePathExpression`: object key lookup, array canonical-index or `length`
lookup; scalar receivers yield `undefined` (string built-ins such as
`"…".length`, which no claim exercises, are not modelled). -/
def isCanonicalIndex (l : List Char) : Bool :=
  match l with
  | [] => false
  | ['0'] => true
  | c :: _ => c ≠ '0' && l.all (fun d => d.isDigit)

def lookupProp (v : JValue) (key : String) : JValue :=
  match v with
  | .obj o => (o.find? key).getD .undef
  | .arr xs =>
    if key = "length" then .num xs.length
    else if isCanonicalIndex key.data then (xs.get? (digitsToNat key.data)).getD .undef
    else .undef
  | _ => JValue.undef

/-- Numeric index access `v[i]` (after `?.` guarding) as used on the
`prop[idx]` form. -/
def indexNat (v : JValue) (i : Nat) : JValue :=
  match v with
  | .arr xs => (xs.get? i).getD .undef
  | .obj o => (o.find? (natToString i)).getD .undef
  | _ => JValue.undef

/-- The part-by-part walk of `resolvePathExpression`: a `null`/`undefined`
intermediate yields `undefined`; a `prop[idx]` part reads the property and
then (null-guarded) the index; any other part is a plain property read. -/
def resolveParts : List String → JValue → JValue
  | [], current => current
  | part :: rest, current =>
    match current with
    | .null => .undef
    | .undef => .undef
    | cur =>
      match parseArrayAccess part.data with
      | some (prop, i) =>
        match lookupProp cur ⟨prop⟩ with
        | .null => resolveParts rest .undef
        | .undef => resolveParts rest .undef
        | v => resolveParts rest (indexNat v i)
      | none => resolveParts rest (lookupProp cur part)

/-- JS `path.split('.')` (single-character separator). -/
def splitOnDot : List Char → List (List Char)
  | [] => [[]]
  | '.' :: rest => [] :: splitOnDot rest
  | c :: rest =>
    match splitOnDot rest with
    | [] => [[c]]
    | h :: t => (c :: h) :: t

/-- `TemplateParser.resolvePathExpression`: split the path on `.` and walk
the context. -/
def resolvePathExpression (path : String) (context : JValue) : JValue :=
  resolveParts ((splitOnDot path.data).map String.mk) context

/-- `TemplateParser.isFullTemplateExpression`: the trimmed string matches
`^\{\{[^}]+\}\}$`. -/
def isFullTemplateExpression (s : String) : Bool :=
  match jsTrimList s.data with
  | '{' :: '{' :: rest =>
    let inner := rest.takeWhile (fun c => c ≠ '}')
    inner ≠ [] && rest.drop inner.length = ['}', '}']
  | _ => false

/-- `TemplateParser.extractPath`: `template.replace(/^\{\{|\}\}$/g, '').trim()` —
drop one leading brace pair and one trailing brace pair of the untrimmed
template, then trim. -/
def extractPath (s : String) : String :=
  let s₁ :=
    match s.data with
    | '{' :: '{' :: r => r
    | l => l
  let s₂ :=
    if 2 ≤ s₁.length ∧ s₁.drop (s₁.length - 2) = ['}', '}'] then
      s₁.take (s₁.length - 2)
    else s₁
  jsTrim ⟨s₂⟩

/-- One replacement of the callback of
`template.replace(/\{\{([^}]+)\}\}/g, …)`: resolve the trimmed inner path;
keep the matched literal when the value is `undefined`, else insert the
string coercion. -/
def replaceOne (inner : List Char) (context : JValue) : List Char :=
  match resolvePathExpression (jsTrim ⟨inner⟩) context with
  | .undef => '{' :: '{' :: (inner ++ ['}', '}'])
  | v => (jsToString v).data

/-- Left-to-right scan of `template.replace(/\{\{([^}]+)\}\}/g, …)`.  At
`\x7b\x7b` the regex engine matches a maximal nonempty run of non-`\x7d`
characters followed by `\x7d\x7d` (the character class makes backtracking
moot); on failure it advances one character.  `fuel` bounds the scan and is
adequate whenever it is at least the list length. -/
def replaceScan (fuel : Nat) (cs : List Char) (context : JValue) : List Char :=
  match fuel, cs with
  | 0, rest => rest
  | _ + 1, [] => []
  | f + 1, '{' :: '{' :: rest =>
    let inner := rest.takeWhile (fun c => c ≠ '}')
    if inner ≠ [] ∧ (rest.drop inner.length).take 2 = ['}', '}'] then
      replaceOne inner context ++ replaceScan f (rest.drop (inner.length + 2)) context
    else
      '{' :: replaceScan f ('{' :: rest) context
  | f + 1, c :: rest => c :: replaceScan f rest context

/-- `TemplateParser.parseString`: a full template expression resolves to the
value with its type preserved; otherwise each `\x7b\x7b…\x7d\x7d` occurrence
is replaced in the string. -/
def parseString (template : String) (context : JValue) : JValue :=
  if isFullTemplateExpression template then
    resolvePathExpression (extractPath template) context
  else
    .str ⟨replaceScan template.data.length template.data context⟩

/- `TemplateParser.parse` / `parseObject`: strings via `parseString`, arrays
element-wise, objects value-wise, scalars unchanged. -/
mutual
def parse (template : JValue) (context : JValue) : JValue :=
  match template with
  | .str s => parseString s context
  | .arr xs => .arr (parseList xs context)
  | .obj kvs => .obj (parseObject kvs context)
  | t => t
def parseList : JList → JValue → JList
  | .nil, _ => .nil
  | .cons h t, context => .cons (parse h context) (parseList t context)
def parseObject : JObj → JValue → JObj
  | .nil, _ => .nil
  | .cons k v t, context => .cons k (parse v context) (parseObject t context)
end

/-!
Domain model and orchestrator, modelling `src/domain/entities.ts`,
`src/services/workflow.service.ts` and the `WorkflowOrchestrator` of
`src/orchestration/workflow-orchestrator.ts` (the non-streaming variant the
claims cite).  The journal repositories are modelled by an explicit `World`
of execution and node-execution records with a shared fresh-id counter
(real records use opaque UUIDs; only distinctness matters).  Timestamps
(`createdAt`/`completedAt`) are not modelled.
-/

/-- Context object handed to a rules-machine program: `parameters`, `config`,
`parent`, the live `state` object, and (for `setState` rules only) the
current node `output`. -/
structure RuleCtx where
  parameters : JValue
  config : JValue
  parent : JValue
  state : JObj
  output : Option JValue

/-- One `setState` entry `\x7bkey, rule\x7d`; the rules-machine program is
modelled by its denotation. -/
structure SetStateRule where
  key : String
  rule : RuleCtx → Except String JValue

/-- A workflow node (`NodeSchema`): id, executor type, config template and
optional `setState` list (absent list = `[]`, which is equivalent since
`executeSetState` of an empty list is a no-op). -/
structure Node where
  id : String
  type : String
  config : JValue
  setState : List SetStateRule := []

/-- An edge (`EdgeInputSchema`): static edges carry `to`, dynamic edges carry
a rules-machine program (modelled by its denotation). -/
inductive Edge where
  | static (id fromId toId : String) : Edge
  | dyn (id fromId : String) (rule : RuleCtx → Except String JValue) : Edge

/-- Shared `id` field of an edge. -/
def Edge.eid : Edge → String
  | .static i _ _ => i
  | .dyn i _ _ => i

/-- Shared `from` field of an edge. -/
def Edge.efrom : Edge → String
  | .static _ f _ => f
  | .dyn _ f _ => f

/-- A stored workflow (`WorkflowModel`): `state` is the declared initial
state object (`none` models a null/absent column, handled by
`workflow.state || \x7b\x7d`), `maxIterations` likewise
(`workflow.maxIterations || 100`). -/
structure Workflow where
  id : String
  name : String
  parameterSchema : JValue
  nodes : List Node
  edges : List Edge
  startNode : String
  endNode : String
  state : Option JObj
  maxIterations : Option Nat
  defaultConfigId : String

/-- The workflow fields of `CreateWorkflowDTO` (`WorkflowSchema` without
`id`/timestamps). -/
structure NewWorkflow where
  name : String
  parameterSchema : JValue
  nodes : List Node
  edges : List Edge
  startNode : String
  endNode : String
  state : Option JObj
  maxIterations : Option Nat
  defaultConfigId : String

/-- `Map.get` over the node list as built by insertion into `nodeMap`
(a duplicated id keeps the last entry, like `Map.set`). -/
def nodeFind (nodes : List Node) (nid : String) : Option Node :=
  nodes.reverse.find? (fun n => decide (n.id = nid))

/-- `Map.get` over `edgeMap` keyed by `edge.from` (last entry wins). -/
def edgeFind (edges : List Edge) (fromId : String) : Option Edge :=
  edges.reverse.find? (fun e => decide (e.efrom = fromId))

/-- Per-edge reference checks of `validateWorkflow`, in source order: the
`from` check precedes the static `to` check, the first failure wins. -/
def edgeRefError (nodeIds : List String) : List Edge → Option String
  | [] => none
  | e :: rest =>
    if e.efrom ∉ nodeIds then
      some ("Edge '" ++ e.eid ++ "' references non-existent 'from' node: " ++ e.efrom)
    else
      match e with
      | .static i _ toId =>
        if toId ∉ nodeIds then
          some ("Edge '" ++ i ++ "' references non-existent 'to' node: " ++ toId)
        else edgeRefError nodeIds rest
      | .dyn _ _ _ => edgeRefError nodeIds rest

/-- The outgoing-edge-count check of `validateWorkflow`: the first `from`
(in insertion order) with more than one outgoing edge fails. -/
def multiEdgeError (froms : List String) : Option String :=
  match froms.find? (fun x => decide (2 ≤ froms.count x)) with
  | some x =>
    some ("Node '" ++ x ++ "' has " ++ natToString (froms.count x) ++
      " outgoing edges. Each node can only have one outgoing edge.")
  | none => none

/-- `WorkflowService.validateWorkflow` on the graph fields common to
`CreateWorkflowDTO` and `WorkflowModel`: start/end existence, edge
references, and the single-outgoing-edge rule.  `none` means valid. -/
def validateGraph (nodes : List Node) (edges : List Edge) (startNode endNode : String) :
    Option String :=
  let nodeIds := nodes.map (fun n => n.id)
  if startNode ∉ nodeIds then
    some ("Start node '" ++ startNode ++ "' does not exist in workflow")
  else if endNode ∉ nodeIds then
    some ("End node '" ++ endNode ++ "' does not exist in workflow")
  else
    match edgeRefError nodeIds edges with
    | some e => some e
    | none => multiEdgeError (edges.map Edge.efrom)

/-- `validateWorkflow` applied to a stored workflow. -/
def validateWorkflow (wf : Workflow) : Option String :=
  validateGraph wf.nodes wf.edges wf.startNode wf.endNode

/-- `WorkflowService.createWorkflow`: validates the DTO, then persists
`\x7b...dto, state: \x7b\x7d, maxIterations: 50\x7d` — the supplied `state`
and `maxIterations` are overridden unconditionally. -/
def createWorkflow (dto : NewWorkflow) : Except String NewWorkflow :=
  match validateGraph dto.nodes dto.edges dto.startNode dto.endNode with
  | some e => .error e
  | none => .ok { dto with state := some .nil, maxIterations := some 50 }

/-- `workflow.maxIterations || 100`: an absent or zero value falls back
to 100. -/
def effectiveMaxIterations (wf : Workflow) : Nat :=
  match wf.maxIterations with
  | none => 100
  | some 0 => 100
  | some (n + 1) => n + 1

/-- `const state = workflow.state || \x7b\x7d`: the traversal's state object
starts as the workflow's declared state object itself (a reference, not a
copy) or a fresh empty object. -/
def initState (wf : Workflow) : JObj := wf.state.getD .nil

/-- Execution / node-execution statuses. -/
inductive ExecStatus where
  | pending : ExecStatus
  | running : ExecStatus
  | completed : ExecStatus
  | failed : ExecStatus
  deriving DecidableEq, Repr

/-- An execution record, as the orchestrator reads and writes it. -/
structure ExecRec where
  id : Nat
  workflowId : String
  status : ExecStatus
  parameters : JValue
  config : JValue
  result : Option JValue
  error : Option String
  deriving DecidableEq, Repr

/-- A node-execution record. -/
structure NodeExecRec where
  id : Nat
  executionId : Nat
  nodeId : String
  status : ExecStatus
  output : Option JValue
  error : Option String
  deriving DecidableEq, Repr

/-- The journal: all execution and node-execution records plus a fresh-id
counter. -/
structure World where
  execs : List ExecRec
  nodeExecs : List NodeExecRec
  nextId : Nat
  deriving DecidableEq, Repr

/-- `executionRepo.create` (status and input fields as passed at the call
sites). -/
def World.createExecution (w : World) (workflowId : String) (st : ExecStatus)
    (params cfg : JValue) : World × Nat :=
  ({ w with
      execs := w.execs ++ [⟨w.nextId, workflowId, st, params, cfg, none, none⟩],
      nextId := w.nextId + 1 }, w.nextId)

/-- `executionRepo.update(id, \x7bstatus: 'completed', result, completedAt\x7d)`. -/
def World.updateExecCompleted (w : World) (eid : Nat) (res : JValue) : World :=
  { w with execs := w.execs.map (fun r =>
      if r.id = eid then { r with status := .completed, result := some res } else r) }

/-- `executionRepo.update(id, \x7bstatus: 'failed', error, completedAt\x7d)`. -/
def World.updateExecFailed (w : World) (eid : Nat) (msg : String) : World :=
  { w with execs := w.execs.map (fun r =>
      if r.id = eid then { r with status := .failed, error := some msg } else r) }

/-- `nodeExecRepo.create` with status `running`. -/
def World.createNodeExec (w : World) (execId : Nat) (nodeId : String) : World × Nat :=
  ({ w with
      nodeExecs := w.nodeExecs ++ [⟨w.nextId, execId, nodeId, .running, none, none⟩],
      nextId := w.nextId + 1 }, w.nextId)

/-- `nodeExecRepo.update(id, \x7bstatus: 'completed', output, completedAt\x7d)`. -/
def World.updateNodeExecCompleted (w : World) (nid : Nat) (out : JValue) : World :=
  { w with nodeExecs := w.nodeExecs.map (fun r =>
      if r.id = nid then { r with status := .completed, output := some out } else r) }

/-- `nodeExecRepo.update(id, \x7bstatus: 'failed', error, completedAt\x7d)`. -/
def World.updateNodeExecFailed (w : World) (nid : Nat) (msg : String) : World :=
  { w with nodeExecs := w.nodeExecs.map (fun r =>
      if r.id = nid then { r with status := .failed, error := some msg } else r) }

/-- Number of node-execution records of one execution for one node id
(how often the node was visited in that execution). -/
def World.execNodeCount (w : World) (e : Nat) (nid : String) : Nat :=
  w.nodeExecs.countP (fun r => decide (r.executionId = e ∧ r.nodeId = nid))

/-- Number of node-execution records of one execution (total node visits of
that execution). -/
def World.nodeExecCount (w : World) (e : Nat) : Nat :=
  w.nodeExecs.countP (fun r => decide (r.executionId = e))

/-- Lookup of an execution record by id. -/
def World.findExec? (w : World) (eid : Nat) : Option ExecRec :=
  w.execs.find? (fun r => decide (r.id = eid))

/-- External collaborators injected into the orchestrator: the executor
factory, the workflow repository backing `WorkflowService.getWorkflow`, and
the `expr-eval` based `TemplateParser.parse` used on `workflow_executor`
configs (the repository id is passed raw, as in JS). -/
structure Env where
  getExecutor : String → Option (JValue → JValue → Except String JValue)
  findWorkflowById : JValue → Option Workflow
  parseTemplate : JValue → JValue → Except String JValue

/-- `WorkflowService.getWorkflow`: find by id or throw `Workflow not found`. -/
def getWorkflowSvc (env : Env) (wid : JValue) : Except String Workflow :=
  match env.findWorkflowById wid with
  | some wf => .ok wf
  | none => .error "Workflow not found"

/-- The `ruleContext` built for each `setState` rule: `parameters`, `config`
and `parent` read off the node input, the live `state`, and the node
`output`. -/
def mkSetStateCtx (input : JValue) (st : JObj) (out : JValue) : RuleCtx :=
  ⟨jGet input "parameters", jGet input "config", jGet input "parent", st, some out⟩

/-- `executeSetState`: apply the rules in order, assigning `state[key]` after
each success; the first failing rule aborts with
`Failed to execute setState for key '<key>': <msg>`, leaving the assignments
already made in the state object (the mutation is in place in the source). -/
def executeSetState (rules : List SetStateRule) (input : JValue) (output : JValue)
    (st : JObj) : JObj × Option String :=
  match rules with
  | [] => (st, none)
  | r :: rest =>
    match r.rule (mkSetStateCtx input st output) with
    | .ok v => executeSetState rest input output (st.set r.key v)
    | .error msg =>
      (st, some ("Failed to execute setState for key '" ++ r.key ++ "': " ++ msg))

/-- `evaluateDynamicEdge`: run the rule on `\x7bparameters, config, state,
parent\x7d`; a non-string result throws inside the wrapped region, so both
rule errors and the type error surface as
`Failed to evaluate dynamic edge '<id>': …`. -/
def evaluateDynamicEdge (edgeId : String) (rule : RuleCtx → Except String JValue)
    (nodeOutputs : JObj) (params config : JValue) (st : JObj) : Except String String :=
  match rule ⟨params, config, .obj nodeOutputs, st, none⟩ with
  | .error msg => .error ("Failed to evaluate dynamic edge '" ++ edgeId ++ "': " ++ msg)
  | .ok (.str s) => .ok s
  | .ok v =>
    .error ("Failed to evaluate dynamic edge '" ++ edgeId ++
      "': Dynamic edge rule must return a string (node ID), but got: " ++ jsTypeof v)

/-- Result of the traversal `while` loop. -/
structure LoopOut where
  world : World
  state : JObj
  outputs : JObj
  current : String
  iterations : Nat
  err : Option String
  deriving Repr

/-- Result of `executeWorkflowTraversal` (the local `iterations` counter is
exposed for the iteration-counting claims). -/
structure TravOut where
  world : World
  state : JObj
  result : Except String JValue
  iterations : Nat
  deriving Repr

/-- Distinguished error of the model's fuel bound (unreachable with adequate
fuel; no source error path produces this string). -/
def fuelErr : String := "model: fuel exhausted"

mutual

/-- `executeNode`: create a `running` node-execution record, build the input
`\x7bparent, parameters, config, state\x7d`, dispatch to the orchestrator's
`workflow_executor` handling or the factory executor, apply `setState`, and
update the record to `completed`/`failed`. -/
def executeNode (env : Env) (fuel : Nat) (node : Node) (execId : Nat) (nodeOutputs : JObj)
    (params config : JValue) (st : JObj) (w : World) :
    World × JObj × Except String JValue :=
  match fuel with
  | 0 => (w, st, .error fuelErr)
  | f + 1 =>
    let created := w.createNodeExec execId node.id
    let input : JValue :=
      .obj (.cons "parent" (.obj nodeOutputs) (.cons "parameters" params
        (.cons "config" config (.cons "state" (.obj st) .nil))))
    let run : World × Except String JValue :=
      if node.type = "workflow_executor" then
        executeWorkflowNode env f node input created.1
      else
        match env.getExecutor node.type with
        | some ex => (created.1, ex node.config input)
        | none => (created.1, .error ("Executor not found for node type: " ++ node.type))
    match run with
    | (w₂, .error e) => (w₂.updateNodeExecFailed created.2 e, st, .error e)
    | (w₂, .ok output) =>
      match executeSetState node.setState input output st with
      | (st', some e) => (w₂.updateNodeExecFailed created.2 e, st', .error e)
      | (st', none) => (w₂.updateNodeExecCompleted created.2 output, st', .ok output)
termination_by structural fuel

/-- The traversal `while` loop: while the current node is not the end node
and `iterations < maxIterations`, count the visit, execute the node, record
its output, and follow the (static or dynamic) outgoing edge.  The `err`
field models an exception escaping the loop. -/
def traverseLoop (env : Env) (fuel : Nat) (wf : Workflow) (execId : Nat) (maxIter : Nat)
    (cur : String) (iters : Nat) (outs : JObj) (params config : JValue) (st : JObj)
    (w : World) : LoopOut :=
  match fuel with
  | 0 => ⟨w, st, outs, cur, iters, some fuelErr⟩
  | f + 1 =>
    if cur = wf.endNode ∨ maxIter ≤ iters then ⟨w, st, outs, cur, iters, none⟩
    else
      match nodeFind wf.nodes cur with
      | none => ⟨w, st, outs, cur, iters + 1,
          some ("Node '" ++ cur ++ "' not found during execution")⟩
      | some node =>
        match executeNode env f node execId outs params config st w with
        | (w₁, st₁, .error e) => ⟨w₁, st₁, outs, cur, iters + 1, some e⟩
        | (w₁, st₁, .ok out) =>
          let outs₁ := outs.set cur out
          if cur = wf.endNode then ⟨w₁, st₁, outs₁, cur, iters + 1, none⟩
          else
            match edgeFind wf.edges cur with
            | none => ⟨w₁, st₁, outs₁, cur, iters + 1,
                some ("No outgoing edge found from node '" ++ cur ++
                  "'. Workflow cannot continue. Did you forget to add an edge?")⟩
            | some (.static _ _ toId) =>
              traverseLoop env f wf execId maxIter toId (iters + 1) outs₁ params config st₁ w₁
            | some (.dyn deid _ rule) =>
              match evaluateDynamicEdge deid rule outs₁ params config st₁ with
              | .error e => ⟨w₁, st₁, outs₁, cur, iters + 1, some e⟩
              | .ok nid =>
                if (nodeFind wf.nodes nid).isSome then
                  traverseLoop env f wf execId maxIter nid (iters + 1) outs₁ params config st₁ w₁
                else
                  ⟨w₁, st₁, outs₁, cur, iters + 1,
                    some ("Dynamic edge '" ++ deid ++ "' returned invalid node ID '" ++
                      nid ++ "'. Node does not exist in workflow.")⟩
termination_by structural fuel

/-- `executeWorkflowTraversal`: initialise the maps and the state reference,
run the loop from `startNode`, fail when the iteration bound was reached,
execute the end node if it has not produced an output yet, and return the
end node's recorded output. -/
def executeWorkflowTraversal (env : Env) (fuel : Nat) (wf : Workflow) (execId : Nat)
    (params config : JValue) (w : World) : TravOut :=
  match fuel with
  | 0 => ⟨w, initState wf, .error fuelErr, 0⟩
  | f + 1 =>
    let maxIter := effectiveMaxIterations wf
    let r := traverseLoop env f wf execId maxIter wf.startNode 0 .nil params config
      (initState wf) w
    match r.err with
    | some e => ⟨r.world, r.state, .error e, r.iterations⟩
    | none =>
      if maxIter ≤ r.iterations then
        ⟨r.world, r.state,
          .error ("Workflow execution exceeded maximum iterations (" ++
            natToString maxIter ++ "). This might indicate an infinite loop in your workflow."),
          r.iterations⟩
      else
        if r.current = wf.endNode ∧ (r.outputs.find? r.current).isNone then
          match nodeFind wf.nodes r.current with
          | some endN =>
            match executeNode env f endN execId r.outputs params config r.state r.world with
            | (w₂, st₂, .error e) => ⟨w₂, st₂, .error e, r.iterations⟩
            | (w₂, st₂, .ok out) =>
              ⟨w₂, st₂, .ok (((r.outputs.set r.current out).find? wf.endNode).getD .undef),
                r.iterations⟩
          | none => ⟨r.world, r.state, .ok ((r.outputs.find? wf.endNode).getD .undef),
              r.iterations⟩
        else ⟨r.world, r.state, .ok ((r.outputs.find? wf.endNode).getD .undef), r.iterations⟩
termination_by structural fuel

/-- `executeWorkflow`: validate, traverse, and on success mark the execution
record `completed` with the final output.  Failures propagate to the caller
without touching the execution record here. -/
def executeWorkflow (env : Env) (fuel : Nat) (wf : Workflow) (execId : Nat)
    (params config : JValue) (w : World) : World × JObj × Except String JValue :=
  match fuel with
  | 0 => (w, initState wf, .error fuelErr)
  | f + 1 =>
    match validateWorkflow wf with
    | some e => (w, initState wf, .error e)
    | none =>
      let t := executeWorkflowTraversal env f wf execId params config w
      match t.result with
      | .error e => (t.world, t.state, .error e)
      | .ok out => (t.world.updateExecCompleted execId out, t.state, .ok out)
termination_by structural fuel

/-- `executeWorkflowNode`: expand the node config, read `workflow_id` and
`parameters`, fetch the sub-workflow, create a `running` sub-execution
record, and recurse; a failing sub-run is re-thrown wrapped as
`Workflow execution failed for workflow_id '<id>': <original>` — note that
no code path updates the sub-execution record on failure. -/
def executeWorkflowNode (env : Env) (fuel : Nat) (node : Node) (input : JValue)
    (w : World) : World × Except String JValue :=
  match fuel with
  | 0 => (w, .error fuelErr)
  | f + 1 =>
    match env.parseTemplate node.config input with
    | .error e => (w, .error e)
    | .ok parsedConfig =>
      let workflowId := jGet parsedConfig "workflow_id"
      let parameters := jGet parsedConfig "parameters"
      if jFalsy workflowId then
        (w, .error "workflow_executor node requires workflow_id in config")
      else if jFalsy parameters || !(jsTypeof parameters == "object") then
        (w, .error "workflow_executor node requires parameters object in config")
      else
        match getWorkflowSvc env workflowId with
        | .error e => (w, .error e)
        | .ok subWf =>
          let created := w.createExecution subWf.id .running parameters
            (jOr (jGet input "config") .null)
          match executeWorkflow env f subWf created.2 parameters
              (jOr (jGet input "config") (.obj .nil)) created.1 with
          | (w₂, _, .ok out) => (w₂, .ok out)
          | (w₂, _, .error e) =>
            (w₂, .error ("Workflow execution failed for workflow_id '" ++
              jsToString workflowId ++ "': " ++ e))
termination_by structural fuel

end

/-- `WorkflowOrchestrator.execute`, the public entry point: run
`executeWorkflow` with the execution record's parameters and config; on any
error mark the execution record `failed` with the message and re-throw. -/
def execute (env : Env) (fuel : Nat) (wf : Workflow) (exec : ExecRec) (w : World) :
    World × JObj × Except String JValue :=
  match executeWorkflow env fuel wf exec.id exec.parameters (jOr exec.config (.obj .nil)) w with
  | (w', st, .ok out) => (w', st, .ok out)
  | (w', st, .error e) => (w'.updateExecFailed exec.id e, st, .error e)

/-- JavaScript aliasing of the state object, made explicit: when the
workflow declares a state object, the traversal's `state` is that very
object, so after `execute` the workflow's stored state holds the
traversal's final contents; with no declared state a fresh object is used
and the workflow value is unaffected. -/
def workflowStateAfterExecute (env : Env) (fuel : Nat) (wf : Workflow) (exec : ExecRec)
    (w : World) : Option JObj :=
  match wf.state with
  | none => none
  | some _ => some (execute env fuel wf exec w).2.1

/-- The workflow value as observed after an execution (see
`workflowStateAfterExecute`). -/
def workflowAfterExecute (env : Env) (fuel : Nat) (wf : Workflow) (exec : ExecRec)
    (w : World) : Workflow :=
  { wf with state := workflowStateAfterExecute env fuel wf exec w }

/-!
Bookkeeping lemmas about the journal: record updates never change which
execution or node a record belongs to, and record creation appends exactly
one record, so the per-execution visit counts evolve predictably.
-/

lemma nextId_updateExecCompleted (w : World) (e : Nat) (v : JValue) :
    (w.updateExecCompleted e v).nextId = w.nextId := rfl

lemma nextId_updateExecFailed (w : World) (e : Nat) (m : String) :
    (w.updateExecFailed e m).nextId = w.nextId := rfl

lemma nextId_updateNodeExecCompleted (w : World) (n : Nat) (v : JValue) :
    (w.updateNodeExecCompleted n v).nextId = w.nextId := rfl

lemma nextId_updateNodeExecFailed (w : World) (n : Nat) (m : String) :
    (w.updateNodeExecFailed n m).nextId = w.nextId := rfl

lemma execNodeCount_updateNodeExecCompleted (w : World) (n : Nat) (v : JValue)
    (e : Nat) (nid : String) :
    (w.updateNodeExecCompleted n v).execNodeCount e nid = w.execNodeCount e nid := by
  unfold World.execNodeCount World.updateNodeExecCompleted
  rw [List.countP_map]
  refine List.countP_congr ?_
  intro r _
  by_cases h : r.id = n <;> simp [Function.comp, h]

lemma execNodeCount_updateNodeExecFailed (w : World) (n : Nat) (m : String)
    (e : Nat) (nid : String) :
    (w.updateNodeExecFailed n m).execNodeCount e nid = w.execNodeCount e nid := by
  unfold World.execNodeCount World.updateNodeExecFailed
  rw [List.countP_map]
  refine List.countP_congr ?_
  intro r _
  by_cases h : r.id = n <;> simp [Function.comp, h]

lemma nodeExecCount_updateNodeExecCompleted (w : World) (n : Nat) (v : JValue) (e : Nat) :
    (w.updateNodeExecCompleted n v).nodeExecCount e = w.nodeExecCount e := by
  unfold World.nodeExecCount World.updateNodeExecCompleted
  rw [List.countP_map]
  refine List.countP_congr ?_
  intro r _
  by_cases h : r.id = n <;> simp [Function.comp, h]

lemma nodeExecCount_updateNodeExecFailed (w : World) (n : Nat) (m : String) (e : Nat) :
    (w.updateNodeExecFailed n m).nodeExecCount e = w.nodeExecCount e := by
  unfold World.nodeExecCount World.updateNodeExecFailed
  rw [List.countP_map]
  refine List.countP_congr ?_
  intro r _
  by_cases h : r.id = n <;> simp [Function.comp, h]

lemma execNodeCount_updateExecCompleted (w : World) (e' : Nat) (v : JValue)
    (e : Nat) (nid : String) :
    (w.updateExecCompleted e' v).execNodeCount e nid = w.execNodeCount e nid := rfl

lemma execNodeCount_updateExecFailed (w : World) (e' : Nat) (m : String)
    (e : Nat) (nid : String) :
    (w.updateExecFailed e' m).execNodeCount e nid = w.execNodeCount e nid := rfl

lemma nodeExecCount_updateExecCompleted (w : World) (e' : Nat) (v : JValue) (e : Nat) :
    (w.updateExecCompleted e' v).nodeExecCount e = w.nodeExecCount e := rfl

lemma nodeExecCount_updateExecFailed (w : World) (e' : Nat) (m : String) (e : Nat) :
    (w.updateExecFailed e' m).nodeExecCount e = w.nodeExecCount e := rfl

lemma execNodeCount_createNodeExec (w : World) (e' : Nat) (nid' : String)
    (e : Nat) (nid : String) :
    (w.createNodeExec e' nid').1.execNodeCount e nid =
      w.execNodeCount e nid + (if e = e' ∧ nid = nid' then 1 else 0) := by
  unfold World.execNodeCount World.createNodeExec
  rw [List.countP_append, List.countP_singleton]
  by_cases h : e = e' ∧ nid = nid'
  · rcases h with ⟨h₁, h₂⟩
    simp [h₁, h₂]
  · rw [if_neg h, decide_eq_false, if_neg (by trivial)]
    intro hc
    exact h ⟨hc.1.symm, hc.2.symm⟩

lemma nodeExecCount_createNodeExec (w : World) (e' : Nat) (nid' : String) (e : Nat) :
    (w.createNodeExec e' nid').1.nodeExecCount e =
      w.nodeExecCount e + (if e = e' then 1 else 0) := by
  unfold World.nodeExecCount World.createNodeExec
  rw [List.countP_append, List.countP_singleton]
  by_cases h : e = e'
  · simp [h]
  · rw [if_neg h, decide_eq_false, if_neg (by trivial)]
    exact fun hc => h hc.symm

lemma execNodeCount_createExecution (w : World) (wid : String) (s : ExecStatus)
    (p c : JValue) (e : Nat) (nid : String) :
    (w.createExecution wid s p c).1.execNodeCount e nid = w.execNodeCount e nid := rfl

lemma nodeExecCount_createExecution (w : World) (wid : String) (s : ExecStatus)
    (p c : JValue) (e : Nat) :
    (w.createExecution wid s p c).1.nodeExecCount e = w.nodeExecCount e := rfl

lemma nodeFind_eq_id {nodes : List Node} {nid : String} {n : Node}
    (h : nodeFind nodes nid = some n) : n.id = nid := by
  have := List.find?_some h
  exact of_decide_eq_true this

lemma nodeFind_isSome_of_mem_ids {nodes : List Node} {nid : String}
    (h : nid ∈ nodes.map (fun n => n.id)) : (nodeFind nodes nid).isSome := by
  rcases List.mem_map.mp h with ⟨n, hn, hid⟩
  apply List.find?_isSome.mpr
  exact ⟨n, List.mem_reverse.mpr hn, by simp [hid]⟩

lemma JObj.find?_set_ne : ∀ (o : JObj) (k : String) (v : JValue) (k' : String),
    k ≠ k' → (o.set k v).find? k' = o.find? k'
  | .nil, k, v, k', h => by simp [JObj.set, JObj.find?, h]
  | .cons k₀ v₀ t, k, v, k', h => by
    by_cases hk : k₀ = k
    · subst hk
      simp [JObj.set, JObj.find?, h]
    · simp only [JObj.set, if_neg hk, JObj.find?]
      by_cases hk' : k₀ = k'
      · simp [hk']
      · simp [hk', JObj.find?_set_ne t k v k' h]

lemma validateWorkflow_endNode_mem {wf : Workflow} (h : validateWorkflow wf = none) :
    wf.endNode ∈ wf.nodes.map (fun n => n.id) := by
  unfold validateWorkflow validateGraph at h
  dsimp only at h
  by_contra hmem
  split_ifs at h

/-!
Record-creation accounting for the orchestrator, proved by mutual induction
on fuel: every `executeNode` call creates exactly one node-execution record
for its own execution; records created by nested sub-workflows always belong
to freshly allocated execution ids, so they never pollute the counts of an
execution id that predates the call.
-/

/-- Accounting contract of `executeNode`: one record for `(execId, node.id)`,
none for any other pre-existing execution id. -/
def NodeEffect (fuel : Nat) : Prop :=
  ∀ env node e outs params config st w w' st' res,
    executeNode env fuel node e outs params config st w = (w', st', res) →
    w.nextId ≤ w'.nextId ∧
    (0 < fuel → ∀ e₀ nid, e₀ < w.nextId →
      w'.execNodeCount e₀ nid = w.execNodeCount e₀ nid +
        (if e₀ = e ∧ nid = node.id then 1 else 0)) ∧
    (0 < fuel → ∀ e₀, e₀ < w.nextId →
      w'.nodeExecCount e₀ = w.nodeExecCount e₀ + (if e₀ = e then 1 else 0)) ∧
    (fuel = 0 → w' = w)

/-- Accounting contract of the traversal loop: it never creates a record for
the end node of its own execution, visits and iteration increments stay in
lockstep on error-free runs, a normal exit is at the end node or the
iteration bound, and the end node never acquires an output. -/
def LoopEffect (fuel : Nat) : Prop :=
  ∀ env wf e maxIter cur iters outs params config st w r,
    traverseLoop env fuel wf e maxIter cur iters outs params config st w = r →
    w.nextId ≤ r.world.nextId ∧
    (∀ e₀ nid, e₀ < w.nextId → e₀ ≠ e →
      r.world.execNodeCount e₀ nid = w.execNodeCount e₀ nid) ∧
    (∀ e₀, e₀ < w.nextId → e₀ ≠ e → r.world.nodeExecCount e₀ = w.nodeExecCount e₀) ∧
    (e < w.nextId → r.world.execNodeCount e wf.endNode = w.execNodeCount e wf.endNode) ∧
    (e < w.nextId → r.err = none →
      r.world.nodeExecCount e + iters = w.nodeExecCount e + r.iterations) ∧
    (r.err = none → r.current = wf.endNode ∨ maxIter ≤ r.iterations) ∧
    ((outs.find? wf.endNode).isNone → (r.outputs.find? wf.endNode).isNone)

/-- Accounting contract of `executeWorkflowTraversal`: a successful traversal
executes the end node exactly once and performs `iterations + 1` node visits
in total. -/
def TravEffect (fuel : Nat) : Prop :=
  ∀ env wf e params config w t,
    executeWorkflowTraversal env fuel wf e params config w = t →
    w.nextId ≤ t.world.nextId ∧
    (∀ e₀ nid, e₀ < w.nextId → e₀ ≠ e →
      t.world.execNodeCount e₀ nid = w.execNodeCount e₀ nid) ∧
    (∀ e₀, e₀ < w.nextId → e₀ ≠ e → t.world.nodeExecCount e₀ = w.nodeExecCount e₀) ∧
    (∀ v, t.result = .ok v → e < w.nextId → (nodeFind wf.nodes wf.endNode).isSome →
      t.world.execNodeCount e wf.endNode = w.execNodeCount e wf.endNode + 1 ∧
      t.world.nodeExecCount e = w.nodeExecCount e + t.iterations + 1)

/-- Accounting contract of `executeWorkflow`: a successful run executes the
workflow's end node exactly once for its execution id. -/
def WfEffect (fuel : Nat) : Prop :=
  ∀ env wf e params config w w' st' res,
    executeWorkflow env fuel wf e params config w = (w', st', res) →
    w.nextId ≤ w'.nextId ∧
    (∀ e₀ nid, e₀ < w.nextId → e₀ ≠ e →
      w'.execNodeCount e₀ nid = w.execNodeCount e₀ nid) ∧
    (∀ e₀, e₀ < w.nextId → e₀ ≠ e → w'.nodeExecCount e₀ = w.nodeExecCount e₀) ∧
    (∀ v, res = .ok v → e < w.nextId →
      w'.execNodeCount e wf.endNode = w.execNodeCount e wf.endNode + 1)

/-- Accounting contract of `executeWorkflowNode`: every record it creates
belongs to a freshly allocated sub-execution id. -/
def WfNodeEffect (fuel : Nat) : Prop :=
  ∀ env node input w w' res,
    executeWorkflowNode env fuel node input w = (w', res) →
    w.nextId ≤ w'.nextId ∧
    (∀ e₀ nid, e₀ < w.nextId → w'.execNodeCount e₀ nid = w.execNodeCount e₀ nid) ∧
    (∀ e₀, e₀ < w.nextId → w'.nodeExecCount e₀ = w.nodeExecCount e₀)

lemma nodeEffect_zero : NodeEffect 0 := by
  intro env node e outs params config st w w' st' res h
  simp only [executeNode] at h
  injection h with h1 h23
  injection h23 with h2 h3
  subst h1
  exact ⟨le_refl _, fun hc => absurd hc (by omega), fun hc => absurd hc (by omega),
    fun _ => rfl⟩

lemma nextId_createNodeExec (w : World) (e : Nat) (nid : String) :
    (w.createNodeExec e nid).1.nextId = w.nextId + 1 := rfl

lemma nextId_createExecution (w : World) (wid : String) (s : ExecStatus) (p c : JValue) :
    (w.createExecution wid s p c).1.nextId = w.nextId + 1 := rfl

lemma loopEffect_zero : LoopEffect 0 := by
  intro env wf e maxIter cur iters outs params config st w r h
  subst h
  exact ⟨le_refl _, fun _ _ _ _ => rfl, fun _ _ _ => rfl, fun _ => rfl,
    fun _ hc => Option.noConfusion hc, fun hc => Option.noConfusion hc, fun hn => hn⟩

lemma travEffect_zero : TravEffect 0 := by
  intro env wf e params config w t h
  subst h
  exact ⟨le_refl _, fun _ _ _ _ => rfl, fun _ _ _ => rfl,
    fun v hv => Except.noConfusion hv⟩

lemma wfEffect_zero : WfEffect 0 := by
  intro env wf e params config w w' st' res h
  simp only [executeWorkflow] at h
  injection h with h1 h23
  injection h23 with h2 h3
  subst h1
  refine ⟨le_refl _, fun _ _ _ _ => rfl, fun _ _ _ => rfl, ?_⟩
  intro v hv
  rw [← h3] at hv
  cases hv

lemma wfNodeEffect_zero : WfNodeEffect 0 := by
  intro env node input w w' res h
  simp only [executeWorkflowNode] at h
  injection h with h1 h2
  subst h1
  exact ⟨le_refl _, fun _ _ _ => rfl, fun _ _ => rfl⟩

lemma runEffect (f : Nat) (IH : WfNodeEffect f) (env : Env) (node : Node) (input : JValue)
    (w₁ w₂ : World) (res₂ : Except String JValue)
    (h : (if node.type = "workflow_executor" then executeWorkflowNode env f node input w₁
          else
            match env.getExecutor node.type with
            | some ex => (w₁, ex node.config input)
            | none => (w₁, .error ("Executor not found for node type: " ++ node.type)))
        = (w₂, res₂)) :
    w₁.nextId ≤ w₂.nextId ∧
    (∀ e₀ nid, e₀ < w₁.nextId → w₂.execNodeCount e₀ nid = w₁.execNodeCount e₀ nid) ∧
    (∀ e₀, e₀ < w₁.nextId → w₂.nodeExecCount e₀ = w₁.nodeExecCount e₀) := by
  split at h
  · exact ⟨(IH _ _ _ _ _ _ h).1, (IH _ _ _ _ _ _ h).2.1, (IH _ _ _ _ _ _ h).2.2⟩
  · split at h <;>
      (injection h with h1 h2; subst h1;
        exact ⟨le_refl _, fun _ _ _ => rfl, fun _ _ => rfl⟩)

lemma nodeEffect_step (f : Nat) (IH : WfNodeEffect f) : NodeEffect (f + 1) := by
  intro env node e outs params config st w w' st' res h
  simp only [executeNode] at h
  have hcr : (w.createNodeExec e node.id).1.nextId = w.nextId + 1 :=
    nextId_createNodeExec w e node.id
  split at h
  · -- run produced an error
    rename_i w₂ e' heq
    obtain ⟨hm, hc, hn⟩ := runEffect f IH env node _ _ _ _ heq
    injection h with h1 h23
    injection h23 with h2 h3
    subst h1
    refine ⟨?_, ?_, ?_, fun h0 => absurd h0 (Nat.succ_ne_zero f)⟩
    · rw [nextId_updateNodeExecFailed]
      omega
    · intro _ e₀ nid he₀
      rw [execNodeCount_updateNodeExecFailed, hc e₀ nid (by omega),
        execNodeCount_createNodeExec]
    · intro _ e₀ he₀
      rw [nodeExecCount_updateNodeExecFailed, hn e₀ (by omega),
        nodeExecCount_createNodeExec]
  · -- run produced an output
    rename_i w₂ output heq
    obtain ⟨hm, hc, hn⟩ := runEffect f IH env node _ _ _ _ heq
    split at h
    · -- setState failed
      rename_i st₂ e' heq₂
      injection h with h1 h23
      injection h23 with h2 h3
      subst h1
      refine ⟨?_, ?_, ?_, fun h0 => absurd h0 (Nat.succ_ne_zero f)⟩
      · rw [nextId_updateNodeExecFailed]
        omega
      · intro _ e₀ nid he₀
        rw [execNodeCount_updateNodeExecFailed, hc e₀ nid (by omega),
          execNodeCount_createNodeExec]
      · intro _ e₀ he₀
        rw [nodeExecCount_updateNodeExecFailed, hn e₀ (by omega),
          nodeExecCount_createNodeExec]
    · -- setState succeeded
      rename_i st₂ heq₂
      injection h with h1 h23
      injection h23 with h2 h3
      subst h1
      refine ⟨?_, ?_, ?_, fun h0 => absurd h0 (Nat.succ_ne_zero f)⟩
      · rw [nextId_updateNodeExecCompleted]
        omega
      · intro _ e₀ nid he₀
        rw [execNodeCount_updateNodeExecCompleted, hc e₀ nid (by omega),
          execNodeCount_createNodeExec]
      · intro _ e₀ he₀
        rw [nodeExecCount_updateNodeExecCompleted, hn e₀ (by omega),
          nodeExecCount_createNodeExec]

lemma loopEffect_step (f : Nat) (IHn : NodeEffect f) (IHl : LoopEffect f) :
    LoopEffect (f + 1) := by
  intro env wf e maxIter cur iters outs params config st w r h
  simp only [traverseLoop] at h
  split at h
  · -- normal loop exit
    rename_i hexit
    subst h
    exact ⟨le_refl _, fun _ _ _ _ => rfl, fun _ _ _ => rfl, fun _ => rfl,
      fun _ _ => rfl, fun _ => hexit, fun hn => hn⟩
  · rename_i hexit
    have hcur : ¬(cur = wf.endNode) := (not_or.mp hexit).1
    split at h
    · -- current node not found
      subst h
      exact ⟨le_refl _, fun _ _ _ _ => rfl, fun _ _ _ => rfl, fun _ => rfl,
        fun _ hc => Option.noConfusion hc, fun hc => Option.noConfusion hc, fun hn => hn⟩
    · rename_i node hnf
      have hnid : node.id = cur := nodeFind_eq_id hnf
      split at h
      · -- executeNode failed
        rename_i w₁ st₁ e' hex
        obtain ⟨hm, hcnt, hncnt, hzero⟩ :=
          IHn env node e outs params config st w w₁ st₁ _ hex
        have base : ∀ e₀ nid, e₀ < w.nextId → ¬(e₀ = e ∧ nid = node.id) →
            w₁.execNodeCount e₀ nid = w.execNodeCount e₀ nid := by
          intro e₀ nid he₀ hne
          by_cases hf0 : f = 0
          · rw [hzero hf0]
          · rw [hcnt (Nat.pos_of_ne_zero hf0) e₀ nid he₀, if_neg hne, Nat.add_zero]
        have baseN : ∀ e₀, e₀ < w.nextId → e₀ ≠ e →
            w₁.nodeExecCount e₀ = w.nodeExecCount e₀ := by
          intro e₀ he₀ hne
          by_cases hf0 : f = 0
          · rw [hzero hf0]
          · rw [hncnt (Nat.pos_of_ne_zero hf0) e₀ he₀, if_neg hne, Nat.add_zero]
        have baseEnd : e < w.nextId →
            w₁.execNodeCount e wf.endNode = w.execNodeCount e wf.endNode := by
          intro he
          refine base e wf.endNode he ?_
          intro hx
          exact hcur (hnid ▸ hx.2.symm)
        subst h
        exact ⟨hm, fun e₀ nid he₀ hne => base e₀ nid he₀ (fun hx => hne hx.1),
          baseN, baseEnd, fun _ hc => Option.noConfusion hc,
          fun hc => Option.noConfusion hc, fun hn => hn⟩
      · -- executeNode succeeded
        rename_i w₁ st₁ out hex
        rw [if_neg hcur] at h
        obtain ⟨hm, hcnt, hncnt, hzero⟩ :=
          IHn env node e outs params config st w w₁ st₁ _ hex
        have hf0 : f ≠ 0 := by
          intro h0
          subst h0
          simp only [executeNode] at hex
          injection hex with hx1 hx23
          injection hx23 with hx2 hx3
          exact Except.noConfusion hx3
        have hpos : 0 < f := Nat.pos_of_ne_zero hf0
        have base : ∀ e₀ nid, e₀ < w.nextId → ¬(e₀ = e ∧ nid = node.id) →
            w₁.execNodeCount e₀ nid = w.execNodeCount e₀ nid := by
          intro e₀ nid he₀ hne
          rw [hcnt hpos e₀ nid he₀, if_neg hne, Nat.add_zero]
        have baseN : ∀ e₀, e₀ < w.nextId → e₀ ≠ e →
            w₁.nodeExecCount e₀ = w.nodeExecCount e₀ := by
          intro e₀ he₀ hne
          rw [hncnt hpos e₀ he₀, if_neg hne, Nat.add_zero]
        have baseEnd : e < w.nextId →
            w₁.execNodeCount e wf.endNode = w.execNodeCount e wf.endNode := by
          intro he
          refine base e wf.endNode he ?_
          intro hx
          exact hcur (hnid ▸ hx.2.symm)
        have baseSelf : e < w.nextId → w₁.nodeExecCount e = w.nodeExecCount e + 1 := by
          intro he
          rw [hncnt hpos e he, if_pos rfl]
        have houts : (outs.find? wf.endNode).isNone →
            (((outs.set cur out).find? wf.endNode)).isNone := by
          intro hn
          rw [JObj.find?_set_ne outs cur out wf.endNode hcur]
          exact hn
        split at h
        · -- no outgoing edge
          subst h
          exact ⟨hm, fun e₀ nid he₀ hne => base e₀ nid he₀ (fun hx => hne hx.1),
            baseN, baseEnd, fun _ hc => Option.noConfusion hc,
            fun hc => Option.noConfusion hc, fun hn => houts hn⟩
        · -- static edge: loop continues
          obtain ⟨Lm, Lc, Ln, Lend, Leq, Lexit, Louts⟩ :=
            IHl env wf e maxIter _ (iters + 1) (outs.set cur out) params config st₁ w₁ r h
          refine ⟨le_trans hm Lm, ?_, ?_, ?_, ?_, Lexit, fun hn => Louts (houts hn)⟩
          · intro e₀ nid he₀ hne
            rw [Lc e₀ nid (lt_of_lt_of_le he₀ hm) hne,
              base e₀ nid he₀ (fun hx => hne hx.1)]
          · intro e₀ he₀ hne
            rw [Ln e₀ (lt_of_lt_of_le he₀ hm) hne, baseN e₀ he₀ hne]
          · intro he
            rw [Lend (lt_of_lt_of_le he hm), baseEnd he]
          · intro he herr
            have h1 := Leq (lt_of_lt_of_le he hm) herr
            have h2 := baseSelf he
            omega
        · -- dynamic edge
          split at h
          · -- dynamic edge evaluation failed
            subst h
            exact ⟨hm, fun e₀ nid he₀ hne => base e₀ nid he₀ (fun hx => hne hx.1),
              baseN, baseEnd, fun _ hc => Option.noConfusion hc,
              fun hc => Option.noConfusion hc, fun hn => houts hn⟩
          · rename_i nid heval
            split at h
            · -- valid target: loop continues
              obtain ⟨Lm, Lc, Ln, Lend, Leq, Lexit, Louts⟩ :=
                IHl env wf e maxIter nid (iters + 1) (outs.set cur out) params config st₁ w₁ r h
              refine ⟨le_trans hm Lm, ?_, ?_, ?_, ?_, Lexit, fun hn => Louts (houts hn)⟩
              · intro e₀ nid' he₀ hne
                rw [Lc e₀ nid' (lt_of_lt_of_le he₀ hm) hne,
                  base e₀ nid' he₀ (fun hx => hne hx.1)]
              · intro e₀ he₀ hne
                rw [Ln e₀ (lt_of_lt_of_le he₀ hm) hne, baseN e₀ he₀ hne]
              · intro he
                rw [Lend (lt_of_lt_of_le he hm), baseEnd he]
              · intro he herr
                have h1 := Leq (lt_of_lt_of_le he hm) herr
                have h2 := baseSelf he
                omega
            · -- invalid target
              subst h
              exact ⟨hm, fun e₀ nid' he₀ hne => base e₀ nid' he₀ (fun hx => hne hx.1),
                baseN, baseEnd, fun _ hc => Option.noConfusion hc,
                fun hc => Option.noConfusion hc, fun hn => houts hn⟩

lemma createExecution_snd (w : World) (wid : String) (s : ExecStatus) (p c : JValue) :
    (w.createExecution wid s p c).2 = w.nextId := rfl

lemma travEffect_step (f : Nat) (IHn : NodeEffect f) (IHl : LoopEffect f) :
    TravEffect (f + 1) := by
  intro env wf e params config w t h
  simp only [executeWorkflowTraversal] at h
  obtain ⟨Lm, Lc, Ln, Lend, Leq, Lexit, Louts⟩ :=
    IHl env wf e (effectiveMaxIterations wf) wf.startNode 0 JObj.nil params config
      (initState wf) w _ rfl
  split at h
  · -- the loop escaped with an exception
    subst h
    exact ⟨Lm, Lc, Ln, fun v hv => Except.noConfusion hv⟩
  · rename_i herr
    split at h
    · -- iteration bound reached
      subst h
      exact ⟨Lm, Lc, Ln, fun v hv => Except.noConfusion hv⟩
    · rename_i hlt
      split at h
      · -- end-node reconciliation branch taken
        rename_i hbr
        split at h
        · -- end node found: it is executed once more
          rename_i endN hnf₂
          split at h
          · -- the end node's execution failed
            rename_i w₂ st₂ e' hex₂
            obtain ⟨hm₂, _, _, hzero₂⟩ := IHn env endN e _ params config _ _ w₂ st₂ _ hex₂
            subst h
            refine ⟨le_trans Lm hm₂, ?_, ?_, fun v hv => Except.noConfusion hv⟩
            · intro e₀ nid he₀ hne
              obtain ⟨_, hcnt₂, _, hzero₂'⟩ := IHn env endN e _ params config _ _ w₂ st₂ _ hex₂
              by_cases hf0 : f = 0
              · rw [hzero₂' hf0, Lc e₀ nid he₀ hne]
              · rw [hcnt₂ (Nat.pos_of_ne_zero hf0) e₀ nid (lt_of_lt_of_le he₀ Lm),
                  if_neg (fun hx => hne hx.1), Nat.add_zero, Lc e₀ nid he₀ hne]
            · intro e₀ he₀ hne
              obtain ⟨_, _, hncnt₂, hzero₂'⟩ := IHn env endN e _ params config _ _ w₂ st₂ _ hex₂
              by_cases hf0 : f = 0
              · rw [hzero₂' hf0, Ln e₀ he₀ hne]
              · rw [hncnt₂ (Nat.pos_of_ne_zero hf0) e₀ (lt_of_lt_of_le he₀ Lm),
                  if_neg hne, Nat.add_zero, Ln e₀ he₀ hne]
          · -- the end node's execution succeeded
            rename_i w₂ st₂ out hex₂
            obtain ⟨hm₂, hcnt₂, hncnt₂, _⟩ := IHn env endN e _ params config _ _ w₂ st₂ _ hex₂
            have hf0 : f ≠ 0 := by
              intro h0
              subst h0
              simp only [executeNode] at hex₂
              injection hex₂ with hx1 hx23
              injection hx23 with hx2 hx3
              exact Except.noConfusion hx3
            have hpos : 0 < f := Nat.pos_of_ne_zero hf0
            subst h
            refine ⟨le_trans Lm hm₂, ?_, ?_, ?_⟩
            · intro e₀ nid he₀ hne
              rw [hcnt₂ hpos e₀ nid (lt_of_lt_of_le he₀ Lm),
                if_neg (fun hx => hne hx.1), Nat.add_zero, Lc e₀ nid he₀ hne]
            · intro e₀ he₀ hne
              rw [hncnt₂ hpos e₀ (lt_of_lt_of_le he₀ Lm), if_neg hne, Nat.add_zero,
                Ln e₀ he₀ hne]
            · intro v hv he hsome
              have hid₂ := nodeFind_eq_id hnf₂
              constructor
              · rw [hcnt₂ hpos e wf.endNode (lt_of_lt_of_le he Lm),
                  if_pos ⟨rfl, by rw [hid₂, hbr.1]⟩, Lend he]
              · have h1 := Leq he herr
                have h2 := hncnt₂ hpos e (lt_of_lt_of_le he Lm)
                rw [if_pos rfl] at h2
                dsimp only
                omega
        · -- end node missing from the node map (impossible on validated workflows)
          rename_i hnf₂
          subst h
          refine ⟨Lm, Lc, Ln, ?_⟩
          intro v hv he hsome
          rw [hbr.1] at hnf₂
          rw [hnf₂] at hsome
          exact absurd hsome (by simp)
      · -- reconciliation branch not taken: contradicts the loop invariants
        rename_i hbr
        subst h
        refine ⟨Lm, Lc, Ln, ?_⟩
        intro v hv he hsome
        exfalso
        apply hbr
        have hend : _ = wf.endNode := (Lexit herr).resolve_right hlt
        refine ⟨hend, ?_⟩
        rw [hend]
        exact Louts rfl

lemma wfEffect_step (f : Nat) (IHt : TravEffect f) : WfEffect (f + 1) := by
  intro env wf e params config w w' st' res h
  simp only [executeWorkflow] at h
  split at h
  · -- validation failed
    injection h with h1 h23
    injection h23 with h2 h3
    subst h1
    refine ⟨le_refl _, fun _ _ _ _ => rfl, fun _ _ _ => rfl, ?_⟩
    intro v hv
    rw [← h3] at hv
    cases hv
  · rename_i hval
    obtain ⟨Tm, Tc, Tn, Tok⟩ := IHt env wf e params config w _ rfl
    split at h
    · -- traversal failed
      rename_i e' hres
      injection h with h1 h23
      injection h23 with h2 h3
      subst h1
      refine ⟨Tm, Tc, Tn, ?_⟩
      intro v hv
      rw [← h3] at hv
      cases hv
    · -- traversal succeeded: execution marked completed
      rename_i out hres
      injection h with h1 h23
      injection h23 with h2 h3
      subst h1
      have hsome : (nodeFind wf.nodes wf.endNode).isSome :=
        nodeFind_isSome_of_mem_ids (validateWorkflow_endNode_mem hval)
      refine ⟨?_, ?_, ?_, ?_⟩
      · rw [nextId_updateExecCompleted]
        exact Tm
      · intro e₀ nid he₀ hne
        rw [execNodeCount_updateExecCompleted]
        exact Tc e₀ nid he₀ hne
      · intro e₀ he₀ hne
        rw [nodeExecCount_updateExecCompleted]
        exact Tn e₀ he₀ hne
      · intro v hv he
        rw [execNodeCount_updateExecCompleted]
        exact (Tok out hres he hsome).1

lemma wfNodeEffect_step (f : Nat) (IHw : WfEffect f) : WfNodeEffect (f + 1) := by
  intro env node input w w' res h
  simp only [executeWorkflowNode] at h
  split at h
  · -- template expansion failed
    injection h with h1 h2
    subst h1
    exact ⟨le_refl _, fun _ _ _ => rfl, fun _ _ => rfl⟩
  · rename_i parsedConfig hp
    split at h
    · -- missing workflow_id
      injection h with h1 h2
      subst h1
      exact ⟨le_refl _, fun _ _ _ => rfl, fun _ _ => rfl⟩
    · split at h
      · -- missing parameters object
        injection h with h1 h2
        subst h1
        exact ⟨le_refl _, fun _ _ _ => rfl, fun _ _ => rfl⟩
      · split at h
        · -- workflow lookup failed
          injection h with h1 h2
          subst h1
          exact ⟨le_refl _, fun _ _ _ => rfl, fun _ _ => rfl⟩
        · rename_i subWf hget
          split at h
          · -- sub-run succeeded
            rename_i w₂ sub₂ out hsub
            obtain ⟨Wm, Wc, Wn, _⟩ := IHw env subWf _ _ _ _ _ _ _ hsub
            injection h with h1 h2
            subst h1
            refine ⟨?_, ?_, ?_⟩
            · exact le_trans (by rw [nextId_createExecution]; omega) Wm
            · intro e₀ nid he₀
              rw [Wc e₀ nid (by rw [nextId_createExecution]; omega)
                (by rw [createExecution_snd]; omega)]
              rfl
            · intro e₀ he₀
              rw [Wn e₀ (by rw [nextId_createExecution]; omega)
                (by rw [createExecution_snd]; omega)]
              rfl
          · -- sub-run failed: error re-thrown wrapped
            rename_i w₂ sub₂ e' hsub
            obtain ⟨Wm, Wc, Wn, _⟩ := IHw env subWf _ _ _ _ _ _ _ hsub
            injection h with h1 h2
            subst h1
            refine ⟨?_, ?_, ?_⟩
            · exact le_trans (by rw [nextId_createExecution]; omega) Wm
            · intro e₀ nid he₀
              rw [Wc e₀ nid (by rw [nextId_createExecution]; omega)
                (by rw [createExecution_snd]; omega)]
              rfl
            · intro e₀ he₀
              rw [Wn e₀ (by rw [nextId_createExecution]; omega)
                (by rw [createExecution_snd]; omega)]
              rfl

/-- The combined accounting lemma, by induction on fuel. -/
lemma orchEffects (fuel : Nat) :
    NodeEffect fuel ∧ LoopEffect fuel ∧ TravEffect fuel ∧ WfEffect fuel ∧
      WfNodeEffect fuel := by
  induction fuel with
  | zero =>
    exact ⟨nodeEffect_zero, loopEffect_zero, travEffect_zero, wfEffect_zero,
      wfNodeEffect_zero⟩
  | succ f ih =>
    obtain ⟨n, l, t, wfe, wn⟩ := ih
    exact ⟨nodeEffect_step f wn, loopEffect_step f n l, travEffect_step f n l,
      wfEffect_step f t, wfNodeEffect_step f wfe⟩

/-!
Concrete scenario material used by the claims: the counter-loop workflow of
the spec's end-to-end scenario 2 and of the orchestrator test suite, a
state-reading workflow, and a nested workflow whose sub-run fails.  The
rules-machine programs appearing in them are bound as their denotations.
-/

/-- Denotation of the rule `[\x7bif: 'true', then: 'count = state.count + 1'\x7d,
\x7breturn: 'count'\x7d]`. -/
def countIncRule : RuleCtx → Except String JValue := fun ctx =>
  match ctx.state.find? "count" with
  | some (.num n) => .ok (.num (n + 1))
  | _ => .error "state.count is not a number"

/-- Denotation of the dynamic-edge rule `[\x7bif: 'state.count < 3', then:
'nextNode = "counter"', else: 'nextNode = "end"'\x7d, \x7breturn: 'nextNode'\x7d]`. -/
def checkRouteRule : RuleCtx → Except String JValue := fun ctx =>
  match ctx.state.find? "count" with
  | some (.num n) => .ok (.str (if n < 3 then "counter" else "end"))
  | _ => .error "state.count is not a number"

/-- A `setState` rule that always succeeds with `1`. -/
def ssOkRule : RuleCtx → Except String JValue := fun _ => .ok (.num 1)

/-- A `setState` rule that always throws. -/
def ssFailRule : RuleCtx → Except String JValue := fun _ => .error "boom"

/-- The sub-workflow used by the nested scenario: its only node has a type no
executor is registered for, so the sub-run fails. -/
def subWfC4 : Workflow :=
  { id := "S", name := "Sub", parameterSchema := jobj [],
    nodes := [⟨"sn", "missing_type", jobj [], []⟩], edges := [],
    startNode := "sn", endNode := "sn", state := none, maxIterations := some 10,
    defaultConfigId := "d" }

/-- The parent workflow of the nested scenario: a single `workflow_executor`
node invoking `subWfC4`. -/
def parentWfC4 : Workflow :=
  { id := "P", name := "Parent", parameterSchema := jobj [],
    nodes := [⟨"pn", "workflow_executor",
      jobj [("workflow_id", .str "S"), ("parameters", jobj [])], []⟩],
    edges := [], startNode := "pn", endNode := "pn", state := none,
    maxIterations := some 10, defaultConfigId := "d" }

/-- Executor table of the demo environment. -/
def demoExecutor (t : String) : Option (JValue → JValue → Except String JValue) :=
  if t = "counter_transformer" then
    some (fun _cfg input => .ok (jobj [("count", jGet (jGet input "state") "count")]))
  else if t = "check_transformer" then
    some (fun _ _ => .ok (jobj [("shouldContinue", .bool true)]))
  else if t = "end_transformer" then
    some (fun _ _ => .ok (jobj [("done", .bool true)]))
  else if t = "state_reader" then
    some (fun _cfg input => .ok (jGet (jGet input "state") "count"))
  else if t = "const_a" then
    some (fun _ _ => .ok (.num 7))
  else none

/-- Demo environment: the executor table above, a repository that resolves
`"S"` to `subWfC4`, and the template expansion instantiated with the modelled
parser (the scenarios expand only placeholder-free configs, on which every
`TemplateParser` variant is the identity). -/
def demoEnv : Env :=
  { getExecutor := demoExecutor,
    findWorkflowById := fun v => if v = .str "S" then some subWfC4 else none,
    parseTemplate := fun t ctx => .ok (parse t ctx) }

/-- The counter-loop workflow (spec scenario 2 / orchestrator test):
`counter → check` statically, `check → counter|end` dynamically, initial
state `\x7bcount: 0\x7d`. -/
def counterWf : Workflow :=
  { id := "w1", name := "Cycle", parameterSchema := jobj [],
    nodes := [⟨"counter", "counter_transformer", jobj [], [⟨"count", countIncRule⟩]⟩,
      ⟨"check", "check_transformer", jobj [], []⟩,
      ⟨"end", "end_transformer", jobj [], []⟩],
    edges := [.static "e1" "counter" "check", .dyn "e2" "check" checkRouteRule],
    startNode := "counter", endNode := "end",
    state := some (.cons "count" (.num 0) .nil),
    maxIterations := some 100, defaultConfigId := "d" }

/-- A single-node workflow whose node reads `state.count` and then increments
it via `setState`. -/
def stateReadWf : Workflow :=
  { id := "w3", name := "StateReader", parameterSchema := jobj [],
    nodes := [⟨"n", "state_reader", jobj [], [⟨"count", countIncRule⟩]⟩],
    edges := [], startNode := "n", endNode := "n",
    state := some (.cons "count" (.num 0) .nil),
    maxIterations := some 100, defaultConfigId := "d" }

/-- A pending execution record with a given id. -/
def mkExec (eid : Nat) (wid : String) : ExecRec :=
  ⟨eid, wid, .running, jobj [], jobj [], none, none⟩

/-- Fresh world containing one execution record with id 0. -/
def world1 (wid : String) : World := ⟨[mkExec 0 wid], [], 1⟩

/-- Empty world whose id counter is past the ambient execution id 0. -/
def emptyWorld : World := ⟨[], [], 1⟩

lemma updateExecFailed_mem (w : World) (eid : Nat) (msg : String) :
    ∀ r ∈ (w.updateExecFailed eid msg).execs, r.id = eid →
      r.status = .failed ∧ r.error = some msg := by
  intro r hr hid
  rcases List.mem_map.mp hr with ⟨r₀, hr₀, hrw⟩
  subst hrw
  by_cases h : r₀.id = eid
  · rw [if_pos h]
    exact ⟨rfl, rfl⟩
  · rw [if_neg h] at hid
    exact absurd hid h

/-- C2: if evaluation of any rule in a node's setState list fails, the node
aborts with `Failed to execute setState for key '<key>': <msg>` — but the
claim's second half is false: the assignments of the rules preceding the
failing one are applied to the state object and remain observable.  At the
concrete input below (first rule sets `a := 1`, second rule throws `boom`)
the aborting node leaves the state mapping changed from `\x7b\x7d` to
`\x7ba: 1\x7d`. -/
theorem c2_counterexample :
    executeSetState [⟨"a", ssOkRule⟩, ⟨"b", ssFailRule⟩] (jobj []) (jobj []) .nil
      = (.cons "a" (.num 1) .nil, some "Failed to execute setState for key 'b': boom") ∧
    (executeSetState [⟨"a", ssOkRule⟩, ⟨"b", ssFailRule⟩] (jobj []) (jobj []) .nil).1
      ≠ JObj.nil := by
  exact ⟨rfl, by decide⟩

/-- C2 (amended): setState rules are applied in order, mutating the state
object in place; when a rule fails, the node aborts with
`Failed to execute setState for key '<key>': <msg>` and the assignments of
the successfully evaluated earlier rules remain in the state object —
partial application is observable. -/
theorem c2_amended :
    ∀ (pre : List SetStateRule) (k : String) (rfn : RuleCtx → Except String JValue)
      (post : List SetStateRule) (input output : JValue) (st st' : JObj) (msg : String),
    executeSetState pre input output st = (st', none) →
    rfn (mkSetStateCtx input st' output) = .error msg →
    executeSetState (pre ++ ⟨k, rfn⟩ :: post) input output st
      = (st', some ("Failed to execute setState for key '" ++ k ++ "': " ++ msg)) := by
  intro pre
  induction pre with
  | nil =>
    intro k rfn post input output st st' msg hpre hr
    simp only [executeSetState] at hpre
    injection hpre with h1 h2
    subst h1
    simp only [List.nil_append, executeSetState, hr]
  | cons r rest ih =>
    intro k rfn post input output st st' msg hpre hr
    simp only [executeSetState] at hpre
    simp only [List.cons_append, executeSetState]
    cases hrr : r.rule (mkSetStateCtx input st output) with
    | ok v =>
      simp only [hrr] at hpre ⊢
      exact ih k rfn post input output (st.set r.key v) st' msg hpre hr
    | error m =>
      simp only [hrr] at hpre
      injection hpre with h1 h2
      exact Option.noConfusion h2

/-- C2 (witness): the amended statement instantiated at the concrete failing
setState list. -/
theorem c2_amended_witness :
    executeSetState [⟨"a", ssOkRule⟩, ⟨"b", ssFailRule⟩] (jobj []) (jobj []) .nil
      = (.cons "a" (.num 1) .nil,
         some "Failed to execute setState for key 'b': boom") :=
  c2_amended [⟨"a", ssOkRule⟩] "b" ssFailRule [] (jobj []) (jobj []) .nil
    (.cons "a" (.num 1) .nil) "boom" rfl rfl

/-- C3: the claim is false on the code: `const state = workflow.state || \x7b\x7d`
binds the traversal state to the workflow's state object itself (no shallow
copy), so setState mutations are visible through the workflow value and a
second execution of the same workflow value does not start from the declared
initial state.  Concretely, `stateReadWf` declares `\x7bcount: 0\x7d`; after one
execution the stored state object holds `\x7bcount: 1\x7d`, and a second
execution of the same workflow value returns `1` where the first returned `0`. -/
theorem c3_counterexample :
    workflowStateAfterExecute demoEnv 9 stateReadWf (mkExec 0 "w3") (world1 "w3")
      = some (.cons "count" (.num 1) .nil) ∧
    stateReadWf.state = some (.cons "count" (.num 0) .nil) ∧
    workflowStateAfterExecute demoEnv 9 stateReadWf (mkExec 0 "w3") (world1 "w3")
      ≠ stateReadWf.state ∧
    (execute demoEnv 9 stateReadWf (mkExec 0 "w3") (world1 "w3")).2.2 = .ok (.num 0) ∧
    (execute demoEnv 9
        (workflowAfterExecute demoEnv 9 stateReadWf (mkExec 0 "w3") (world1 "w3"))
        (mkExec 0 "w3") (world1 "w3")).2.2 = .ok (.num 1) := by
  exact ⟨by decide, rfl, by decide, by decide, by decide⟩

/-- C3 (amended): the execution state is a reference to the workflow's
declared state object when one is declared (so mutations are observable
through the workflow value, and a successive execution of the same workflow
value starts from the mutated state), and a fresh empty object — leaving the
workflow value untouched — when none is declared. -/
theorem c3_amended :
    (∀ env fuel wf exec w, wf.state = none →
      workflowStateAfterExecute env fuel wf exec w = none) ∧
    workflowStateAfterExecute demoEnv 9 stateReadWf (mkExec 0 "w3") (world1 "w3")
      = some (.cons "count" (.num 1) .nil) ∧
    (execute demoEnv 9
        (workflowAfterExecute demoEnv 9 stateReadWf (mkExec 0 "w3") (world1 "w3"))
        (mkExec 0 "w3") (world1 "w3")).2.2 = .ok (.num 1) := by
  refine ⟨?_, by decide, by decide⟩
  intro env fuel wf exec w h
  unfold workflowStateAfterExecute
  rw [h]

/-- C3 (witness): the amended statement's reference clause instantiated at a
workflow with no declared state. -/
theorem c3_amended_witness :
    workflowStateAfterExecute demoEnv 3 { stateReadWf with state := none }
      (mkExec 0 "w3") (world1 "w3") = none :=
  c3_amended.1 demoEnv 3 { stateReadWf with state := none } (mkExec 0 "w3")
    (world1 "w3") rfl

/-- C4: the wrapped error message is produced, but the claim's "both records
end failed" is false: in the nested scenario the sub-execution record
(id 2) is created `running` and never updated, so it does not end in status
`failed`. -/
theorem c4_counterexample :
    ((execute demoEnv 9 parentWfC4 (mkExec 0 "P") (world1 "P")).1.findExec? 2).map
        ExecRec.status = some .running ∧
    ((execute demoEnv 9 parentWfC4 (mkExec 0 "P") (world1 "P")).1.findExec? 2).map
        ExecRec.status ≠ some .failed := by
  exact ⟨by decide, by decide⟩

/-- C4 (amended): a failing sub-workflow propagates wrapped as
`Workflow execution failed for workflow_id '<id>': <original>`, the parent
execution record ends `failed` carrying the wrapped message, but the
sub-execution record stays `running` forever: no code path updates it on
failure. -/
theorem c4_amended :
    (execute demoEnv 9 parentWfC4 (mkExec 0 "P") (world1 "P")).2.2
      = .error ("Workflow execution failed for workflow_id 'S': " ++
          "Executor not found for node type: missing_type") ∧
    ((execute demoEnv 9 parentWfC4 (mkExec 0 "P") (world1 "P")).1.findExec? 0).map
        ExecRec.status = some .failed ∧
    ((execute demoEnv 9 parentWfC4 (mkExec 0 "P") (world1 "P")).1.findExec? 0).map
        ExecRec.error = some (some ("Workflow execution failed for workflow_id 'S': " ++
          "Executor not found for node type: missing_type")) ∧
    ((execute demoEnv 9 parentWfC4 (mkExec 0 "P") (world1 "P")).1.findExec? 2).map
        ExecRec.status = some .running := by
  exact ⟨by decide, by decide, by decide, by decide⟩

/-- C10: `createWorkflow` persists every workflow with the empty state
mapping and `maxIterations = 50`, regardless of the DTO's `state` and
`maxIterations`; the orchestrator's default of 100 applies exactly when the
stored field is absent or zero. -/
theorem c10_create_defaults :
    (∀ dto rec : NewWorkflow, createWorkflow dto = .ok rec →
      rec.state = some JObj.nil ∧ rec.maxIterations = some 50) ∧
    (∀ wf : Workflow, (wf.maxIterations = none ∨ wf.maxIterations = some 0) →
      effectiveMaxIterations wf = 100) ∧
    (∀ (wf : Workflow) (n : Nat), wf.maxIterations = some (n + 1) →
      effectiveMaxIterations wf = n + 1) := by
  refine ⟨?_, ?_, ?_⟩
  · intro dto rec h
    unfold createWorkflow at h
    split at h
    · cases h
    · injection h with h1
      subst h1
      exact ⟨rfl, rfl⟩
  · intro wf h
    unfold effectiveMaxIterations
    rcases h with h | h <;> rw [h]
  · intro wf n h
    unfold effectiveMaxIterations
    rw [h]

/-- A valid create-workflow DTO that supplies its own state and
maxIterations. -/
def dtoC10 : NewWorkflow :=
  { name := "n", parameterSchema := jobj [],
    nodes := [⟨"a", "const_a", jobj [], []⟩], edges := [],
    startNode := "a", endNode := "a",
    state := some (.cons "k" (.num 9) .nil), maxIterations := some 7,
    defaultConfigId := "d" }

/-- C10 (witness): the defaults theorem instantiated at `dtoC10` (whose
supplied state `\x7bk: 9\x7d` and maxIterations 7 are overridden) and at the
counter workflow (stored maxIterations 100). -/
theorem c10_create_defaults_witness :
    (({ dtoC10 with state := some JObj.nil, maxIterations := some 50 } :
        NewWorkflow).state = some JObj.nil ∧
      ({ dtoC10 with state := some JObj.nil, maxIterations := some 50 } :
        NewWorkflow).maxIterations = some 50) ∧
    effectiveMaxIterations counterWf = 100 :=
  ⟨c10_create_defaults.1 dtoC10 _ rfl, c10_create_defaults.2.2 counterWf 99 rfl⟩

/-!
Idempotence analysis of template expansion.  `hasCurlyPair` detects an
adjacent `\x7b\x7b` pair — the only trigger of both the full-expression test
and the inline `replace` — and values free of such pairs are fixpoints of
`parse`.
-/

/-- Whether a character list contains two adjacent opening braces. -/
def hasCurlyPair : List Char → Bool
  | [] => false
  | [_] => false
  | a :: b :: rest => (a = '{' && b = '{') || hasCurlyPair (b :: rest)

/- Whether a value contains no adjacent opening-brace pair in any of its
strings (no `\x7b\x7bexpr\x7d\x7d` placeholder can match inside it). -/
mutual
def noCurlyPairs : JValue → Bool
  | .str s => !hasCurlyPair s.data
  | .arr xs => noCurlyPairsList xs
  | .obj kvs => noCurlyPairsObj kvs
  | _ => true
def noCurlyPairsList : JList → Bool
  | .nil => true
  | .cons h t => noCurlyPairs h && noCurlyPairsList t
def noCurlyPairsObj : JObj → Bool
  | .nil => true
  | .cons _ v t => noCurlyPairs v && noCurlyPairsObj t
end

lemma hasCurlyPair_cons (c : Char) (xs : List Char) (h : hasCurlyPair xs = true) :
    hasCurlyPair (c :: xs) = true := by
  cases xs with
  | nil => cases h
  | cons b r =>
    simp only [hasCurlyPair, Bool.or_eq_true]
    exact Or.inr h

lemma hasCurlyPair_append_left :
    ∀ (l t : List Char), hasCurlyPair l = true → hasCurlyPair (l ++ t) = true
  | [], _, h => by cases h
  | [a], _, h => by simp [hasCurlyPair] at h
  | a :: b :: r, t, h => by
    simp only [hasCurlyPair, Bool.or_eq_true] at h
    simp only [List.cons_append, hasCurlyPair, Bool.or_eq_true]
    rcases h with h | h
    · exact Or.inl h
    · exact Or.inr (by
        have := hasCurlyPair_append_left (b :: r) t h
        simpa using this)

lemma hasCurlyPair_append_right (t l : List Char) (h : hasCurlyPair l = true) :
    hasCurlyPair (t ++ l) = true := by
  induction t with
  | nil => exact h
  | cons c t ih => exact hasCurlyPair_cons c (t ++ l) ih

lemma hasCurlyPair_of_trim (l : List Char) (h : hasCurlyPair (jsTrimList l) = true) :
    hasCurlyPair l = true := by
  unfold jsTrimList at h
  obtain ⟨t, ht⟩ :=
    List.dropWhile_suffix (l := (l.dropWhile isJsSpace).reverse) (p := isJsSpace)
  have hpl : ((l.dropWhile isJsSpace).reverse.dropWhile isJsSpace).reverse ++ t.reverse
      = l.dropWhile isJsSpace := by
    rw [← List.reverse_append, ht, List.reverse_reverse]
  have h₂ : hasCurlyPair (l.dropWhile isJsSpace) = true := by
    rw [← hpl]
    exact hasCurlyPair_append_left _ _ h
  have h₃ : l = l.takeWhile isJsSpace ++ l.dropWhile isJsSpace :=
    (List.takeWhile_append_dropWhile (p := isJsSpace) (l := l)).symm
  rw [h₃]
  exact hasCurlyPair_append_right _ _ h₂

lemma isFull_eq_false_of_no_pair (s : String) (h : hasCurlyPair s.data = false) :
    isFullTemplateExpression s = false := by
  by_contra hne
  have htrue : isFullTemplateExpression s = true := by
    cases hb : isFullTemplateExpression s
    · exact absurd hb hne
    · rfl
  unfold isFullTemplateExpression at htrue
  split at htrue
  · rename_i rest heq
    have hp : hasCurlyPair (jsTrimList s.data) = true := by
      rw [heq]
      simp [hasCurlyPair]
    rw [hasCurlyPair_of_trim _ hp] at h
    cases h
  · cases htrue

lemma replaceScan_cons_of_not_pair (f : Nat) (c : Char) (rest : List Char) (ctx : JValue)
    (h : ¬(c = '{' ∧ ∃ r, rest = '{' :: r)) :
    replaceScan (f + 1) (c :: rest) ctx = c :: replaceScan f rest ctx := by
  rw [replaceScan.eq_def]
  split
  · rename_i h1
    exact absurd h1 (by omega)
  · rename_i h2
    simp at h2
  · rename_i h2
    injection h2 with h2a h2b
    exact absurd ⟨h2a, _, h2b⟩ h
  · rename_i f₁ hd rst hno h1 h2
    injection h2 with h2a h2b
    subst h2a
    subst h2b
    have hf : f₁ = f := by omega
    subst hf
    rfl

lemma hasCurlyPair_tail (a : Char) (rest : List Char)
    (h : hasCurlyPair (a :: rest) = false) : hasCurlyPair rest = false := by
  cases rest with
  | nil => rfl
  | cons b r =>
    simp only [hasCurlyPair, Bool.or_eq_false_iff] at h
    exact h.2

lemma replaceScan_no_pair :
    ∀ (fuel : Nat) (l : List Char) (ctx : JValue),
      hasCurlyPair l = false → replaceScan fuel l ctx = l := by
  intro fuel
  induction fuel with
  | zero =>
    intro l ctx h
    rfl
  | succ f ih =>
    intro l ctx h
    cases l with
    | nil => rfl
    | cons a rest =>
      rw [replaceScan_cons_of_not_pair f a rest ctx ?_, ih rest ctx (hasCurlyPair_tail a rest h)]
      rintro ⟨rfl, r, rfl⟩
      simp [hasCurlyPair] at h

lemma parseString_no_pair (s : String) (ctx : JValue)
    (h : hasCurlyPair s.data = false) : parseString s ctx = .str s := by
  unfold parseString
  rw [isFull_eq_false_of_no_pair s h]
  simp only [Bool.false_eq_true, if_false]
  rw [replaceScan_no_pair _ _ _ h]

/- Values without an adjacent opening-brace pair are fixpoints of `parse`. -/
mutual
theorem parse_fixpoint : ∀ (v ctx : JValue), noCurlyPairs v = true → parse v ctx = v
  | .null, _, _ => rfl
  | .undef, _, _ => rfl
  | .bool _, _, _ => rfl
  | .num _, _, _ => rfl
  | .str s, ctx, h =>
    parseString_no_pair s ctx (by simpa [noCurlyPairs] using h)
  | .arr xs, ctx, h => by
    simp only [parse]
    rw [parseList_fixpoint xs ctx (by simpa [noCurlyPairs] using h)]
  | .obj kvs, ctx, h => by
    simp only [parse]
    rw [parseObject_fixpoint kvs ctx (by simpa [noCurlyPairs] using h)]
theorem parseList_fixpoint : ∀ (xs : JList) (ctx : JValue),
    noCurlyPairsList xs = true → parseList xs ctx = xs
  | .nil, _, _ => rfl
  | .cons hd tl, ctx, h => by
    have h' : noCurlyPairs hd = true ∧ noCurlyPairsList tl = true := by
      simpa [noCurlyPairsList, Bool.and_eq_true] using h
    simp only [parseList]
    rw [parse_fixpoint hd ctx h'.1, parseList_fixpoint tl ctx h'.2]
theorem parseObject_fixpoint : ∀ (kvs : JObj) (ctx : JValue),
    noCurlyPairsObj kvs = true → parseObject kvs ctx = kvs
  | .nil, _, _ => rfl
  | .cons k v tl, ctx, h => by
    have h' : noCurlyPairs v = true ∧ noCurlyPairsObj tl = true := by
      simpa [noCurlyPairsObj, Bool.and_eq_true] using h
    simp only [parseObject]
    rw [parse_fixpoint v ctx h'.1, parseObject_fixpoint tl ctx h'.2]
end

/-- Context for the idempotence counterexample: `x` holds the literal string
`\x7b\x7by\x7d\x7d` and `y` holds 5. -/
def ctxC9 : JValue := jobj [("x", .str "\x7b\x7by\x7d\x7d"), ("y", .num 5)]

/-- C9: template expansion is not idempotent: when a substituted value
itself contains a placeholder, the second pass expands it again.  With
context `\x7bx: "\x7b\x7by\x7d\x7d", y: 5\x7d`, one pass over
`\x7b\x7bx\x7d\x7d` yields the string `\x7b\x7by\x7d\x7d`, and a second pass
yields the number 5. -/
theorem c9_counterexample :
    parse (.str "\x7b\x7bx\x7d\x7d") ctxC9 = .str "\x7b\x7by\x7d\x7d" ∧
    parse (parse (.str "\x7b\x7bx\x7d\x7d") ctxC9) ctxC9 = .num 5 ∧
    parse (parse (.str "\x7b\x7bx\x7d\x7d") ctxC9) ctxC9
      ≠ parse (.str "\x7b\x7bx\x7d\x7d") ctxC9 := by
  exact ⟨by decide, by decide, by decide⟩

/-- C9 (amended): one-pass convergence holds exactly when the first pass's
result reintroduces no placeholder: if `parse M C` contains no adjacent
opening-brace pair in any of its strings, then
`parse (parse M C) C = parse M C`. -/
theorem c9_amended :
    ∀ M C : JValue, noCurlyPairs (parse M C) = true →
      parse (parse M C) C = parse M C :=
  fun M C h => parse_fixpoint (parse M C) C h

/-- C9 (witness): the amended statement at a template whose expansion is
placeholder-free. -/
theorem c9_amended_witness :
    parse (parse (.str "v=\x7b\x7by\x7d\x7d!") ctxC9) ctxC9
      = parse (.str "v=\x7b\x7by\x7d\x7d!") ctxC9 :=
  c9_amended (.str "v=\x7b\x7by\x7d\x7d!") ctxC9 (by decide)

/-!
Inline-replacement analysis of `parseString`: a template presented as an
alternation of brace-free literal pieces and `\x7b\x7bexpr\x7d\x7d`
occurrences is rewritten occurrence by occurrence, preserving the literal
pieces; an occurrence resolving to `undefined` stays in place verbatim.
-/

/-- A template piece: literal text or the inner text of one
`\x7b\x7bexpr\x7d\x7d` occurrence. -/
inductive TChunk where
  | lit (s : List Char) : TChunk
  | expr (e : List Char) : TChunk

/-- Well-formedness of a piece: literals contain no opening brace, expression
texts are nonempty and contain no closing brace (exactly the shape the regex
`\x7b\x7b([^\x7d]+)\x7d\x7d` matches). -/
def chunkOK : TChunk → Bool
  | .lit s => s.all (fun c => c ≠ '{')
  | .expr e => !e.isEmpty && e.all (fun c => c ≠ '}')

/-- The template string denoted by a list of pieces. -/
def renderChunks : List TChunk → List Char
  | [] => []
  | .lit s :: rest => s ++ renderChunks rest
  | .expr e :: rest => '{' :: '{' :: (e ++ '}' :: '}' :: renderChunks rest)

/-- The replacement's expected output: literals verbatim; each expression
resolved against the context, coerced with `String(...)` when defined, kept
as the original `\x7b\x7bexpr\x7d\x7d` literal when `undefined`. -/
def resolveChunks (ctx : JValue) : List TChunk → List Char
  | [] => []
  | .lit s :: rest => s ++ resolveChunks ctx rest
  | .expr e :: rest =>
    (match resolvePathExpression (jsTrim ⟨e⟩) ctx with
     | .undef => '{' :: '{' :: (e ++ ['}', '}'])
     | v => (jsToString v).data) ++ resolveChunks ctx rest

lemma replaceScan_append_lit :
    ∀ (s : List Char) (fuel : Nat) (cs : List Char) (ctx : JValue),
      s.all (fun c => c ≠ '{') = true →
      replaceScan (s.length + fuel) (s ++ cs) ctx = s ++ replaceScan fuel cs ctx := by
  intro s
  induction s with
  | nil =>
    intro fuel cs ctx _
    simp
  | cons c s' ih =>
    intro fuel cs ctx h
    simp only [List.all_cons, Bool.and_eq_true, decide_eq_true_eq] at h
    have harith : (c :: s').length + fuel = (s'.length + fuel) + 1 := by
      simp [List.length_cons]
      omega
    rw [harith, List.cons_append,
      replaceScan_cons_of_not_pair (s'.length + fuel) c (s' ++ cs) ctx
        (fun hx => h.1 hx.1),
      ih fuel cs ctx h.2, List.cons_append]

lemma takeWhile_append_closing :
    ∀ (e l : List Char), e.all (fun c => c ≠ '}') = true →
      (e ++ '}' :: l).takeWhile (fun c => c ≠ '}') = e
  | [], l, _ => by simp [List.takeWhile_cons]
  | c :: e', l, h => by
    simp only [List.all_cons, Bool.and_eq_true, decide_eq_true_eq] at h
    simp only [List.cons_append, List.takeWhile_cons, decide_eq_true (by exact h.1)]
    rw [takeWhile_append_closing e' l h.2]
    simp [h.1]

lemma drop_append_two (e R : List Char) :
    (e ++ '}' :: '}' :: R).drop (e.length + 2) = R := by
  rw [← List.drop_drop, List.drop_left]
  rfl

lemma replaceScan_expr_step (f : Nat) (e R : List Char) (ctx : JValue)
    (hne : e ≠ []) (hnc : e.all (fun c => c ≠ '}') = true) :
    replaceScan (f + 1) ('{' :: '{' :: (e ++ '}' :: '}' :: R)) ctx
      = replaceOne e ctx ++ replaceScan f R ctx := by
  have htw : (e ++ '}' :: '}' :: R).takeWhile (fun c => c ≠ '}') = e :=
    takeWhile_append_closing e ('}' :: R) hnc
  simp only [replaceScan, htw]
  rw [if_pos ⟨hne, by rw [List.drop_left]; rfl⟩, drop_append_two]

lemma replaceScan_chunks :
    ∀ (chunks : List TChunk) (ctx : JValue) (fuel : Nat),
      (∀ ch ∈ chunks, chunkOK ch = true) →
      (renderChunks chunks).length ≤ fuel →
      replaceScan fuel (renderChunks chunks) ctx = resolveChunks ctx chunks := by
  intro chunks
  induction chunks with
  | nil =>
    intro ctx fuel _ _
    cases fuel <;> rfl
  | cons ch rest ih =>
    intro ctx fuel hok hfuel
    cases ch with
    | lit s =>
      have hs : s.all (fun c => c ≠ '{') = true := by
        simpa [chunkOK] using hok (.lit s) (by simp)
      have hle : s.length + (renderChunks rest).length ≤ fuel := by
        simpa [renderChunks, List.length_append] using hfuel
      obtain ⟨fuel', rfl⟩ : ∃ fuel', fuel = s.length + fuel' :=
        ⟨fuel - s.length, by omega⟩
      simp only [renderChunks, resolveChunks]
      rw [replaceScan_append_lit s fuel' (renderChunks rest) ctx hs,
        ih ctx fuel' (fun c hm => hok c (by simp [hm])) (by omega)]
    | expr e =>
      have he : (!e.isEmpty && e.all (fun c => c ≠ '}')) = true := by
        simpa [chunkOK] using hok (.expr e) (by simp)
      rw [Bool.and_eq_true] at he
      have hne : e ≠ [] := by simpa using he.1
      have hlen : e.length + 4 + (renderChunks rest).length ≤ fuel := by
        simp only [renderChunks, List.length_cons, List.length_append] at hfuel
        omega
      obtain ⟨f, rfl⟩ : ∃ f, fuel = f + 1 := ⟨fuel - 1, by omega⟩
      simp only [renderChunks, resolveChunks]
      rw [replaceScan_expr_step f e (renderChunks rest) ctx hne he.2,
        ih ctx f (fun c hm => hok c (by simp [hm])) (by omega)]
      rfl

/-- C5: for a template that is an alternation of brace-free literal pieces
and `\x7b\x7bexpr\x7d\x7d` occurrences and is not a single full template
expression, `parseString` returns a string in which each occurrence is
replaced by the string coercion of its resolved value — the original
occurrence text remaining verbatim when the expression resolves to
`undefined` — with all surrounding literal text preserved. -/
theorem c5_parseString_replaces :
    ∀ (chunks : List TChunk) (ctx : JValue),
      (∀ ch ∈ chunks, chunkOK ch = true) →
      isFullTemplateExpression ⟨renderChunks chunks⟩ = false →
      parseString ⟨renderChunks chunks⟩ ctx = .str ⟨resolveChunks ctx chunks⟩ := by
  intro chunks ctx hok hfull
  unfold parseString
  rw [hfull]
  simp only [Bool.false_eq_true, if_false]
  exact congrArg JValue.str
    (congrArg String.mk (replaceScan_chunks chunks ctx _ hok (le_refl _)))

/-- Pieces of the witness template `a \x7b\x7bx\x7d\x7d b\x7b\x7bm\x7d\x7d`. -/
def chunksC5 : List TChunk :=
  [.lit "a ".data, .expr "x".data, .lit " b".data, .expr "m".data]

/-- Context of the C5 witness: `x` defined as 5, `m` undefined. -/
def ctxC5 : JValue := jobj [("x", .num 5)]

/-- C5 (witness): on `a \x7b\x7bx\x7d\x7d b\x7b\x7bm\x7d\x7d` with `x = 5`
and `m` undefined, the defined occurrence becomes `5` and the undefined one
stays verbatim. -/
theorem c5_parseString_replaces_witness :
    (⟨renderChunks chunksC5⟩ : String) = "a \x7b\x7bx\x7d\x7d b\x7b\x7bm\x7d\x7d" ∧
    parseString ⟨renderChunks chunksC5⟩ ctxC5 = .str "a 5 b\x7b\x7bm\x7d\x7d" :=
  ⟨by decide,
    (c5_parseString_replaces chunksC5 ctxC5 (by decide) (by decide)).trans (by decide)⟩

/-- C1: the claim is false on two counts visible in the counter-loop
scenario.  The loop increments `iterations` once per loop visit, but the end
node is executed by the post-loop reconciliation step, which does not touch
the counter: the scenario's traversal performs 7 node visits (counter 3,
check 3, end 1 — 7 node-execution records) yet reports `iterations = 6`, and
in particular the total is not 7 iterations. -/
theorem c1_counterexample :
    (executeWorkflowTraversal demoEnv 50 counterWf 0 (jobj []) (jobj [])
        emptyWorld).result = .ok (jobj [("done", .bool true)]) ∧
    (executeWorkflowTraversal demoEnv 50 counterWf 0 (jobj []) (jobj [])
        emptyWorld).world.nodeExecCount 0 = 7 ∧
    (executeWorkflowTraversal demoEnv 50 counterWf 0 (jobj []) (jobj [])
        emptyWorld).iterations = 6 ∧
    (executeWorkflowTraversal demoEnv 50 counterWf 0 (jobj []) (jobj [])
        emptyWorld).iterations ≠
      (executeWorkflowTraversal demoEnv 50 counterWf 0 (jobj []) (jobj [])
        emptyWorld).world.nodeExecCount 0 := by
  refine ⟨rfl, rfl, rfl, by decide⟩

/-- C1 (amended): inside the traversal loop each node visit increments the
iteration counter by exactly one, so on error-free loop runs the number of
node-execution records created for the execution equals the iteration
increment; the end node, however, is executed by the post-loop
reconciliation without incrementing the counter, so a successful traversal
performs `iterations + 1` node visits in total — in the counter-loop
scenario 7 visits (counter 3, check 3, end 1) with `iterations = 6`. -/
theorem c1_amended :
    (∀ fuel env wf e maxIter cur iters outs params config st w r,
      traverseLoop env fuel wf e maxIter cur iters outs params config st w = r →
      e < w.nextId → r.err = none →
      r.world.nodeExecCount e + iters = w.nodeExecCount e + r.iterations) ∧
    (∀ fuel env wf e params config w t v,
      executeWorkflowTraversal env fuel wf e params config w = t →
      t.result = .ok v → e < w.nextId → (nodeFind wf.nodes wf.endNode).isSome →
      t.world.nodeExecCount e = w.nodeExecCount e + t.iterations + 1) ∧
    (executeWorkflowTraversal demoEnv 50 counterWf 0 (jobj []) (jobj [])
        emptyWorld).iterations = 6 ∧
    (executeWorkflowTraversal demoEnv 50 counterWf 0 (jobj []) (jobj [])
        emptyWorld).world.nodeExecCount 0 = 7 :=
  ⟨fun fuel env wf e maxIter cur iters outs params config st w r h he herr =>
      ((orchEffects fuel).2.1 env wf e maxIter cur iters outs params config st w r
        h).2.2.2.2.1 he herr,
    fun fuel env wf e params config w t v h hres he hsome =>
      (((orchEffects fuel).2.2.1 env wf e params config w t h).2.2.2 v hres he hsome).2,
    rfl, rfl⟩

/-- C1 (witness for the amended theorem): the loop of the counter scenario,
run from the start with the scenario's initial state, creates exactly
`iterations` node-execution records for execution 0. -/
theorem c1_amended_witness :
    (traverseLoop demoEnv 49 counterWf 0 100 "counter" 0 .nil (jobj []) (jobj [])
        (initState counterWf) emptyWorld).world.nodeExecCount 0 + 0
      = emptyWorld.nodeExecCount 0 +
        (traverseLoop demoEnv 49 counterWf 0 100 "counter" 0 .nil (jobj []) (jobj [])
          (initState counterWf) emptyWorld).iterations :=
  c1_amended.1 49 demoEnv counterWf 0 100 "counter" 0 .nil (jobj []) (jobj [])
    (initState counterWf) emptyWorld _ rfl (by decide) (by decide)

/-- C7: at a loop step that follows a dynamic edge, the edge's rule is
evaluated on `\x7bparameters, config, parent: nodeOutputs, state\x7d`; a
string result naming an existing node continues the traversal at that node,
a non-string result fails the step with `Failed to evaluate dynamic edge
'<id>': Dynamic edge rule must return a string (node ID), but got:
<typeof>`, and a string result naming no node of the workflow fails the
step with `Dynamic edge '<id>' returned invalid node ID '<result>'. Node
does not exist in workflow.`. -/
theorem c7_dynamic_edge
    (env : Env) (f : Nat) (wf : Workflow) (execId maxIter iters : Nat) (cur : String)
    (outs : JObj) (params config : JValue) (st : JObj) (w : World)
    (node : Node) (w₁ : World) (st₁ : JObj) (out : JValue)
    (deid dfrom : String) (rule : RuleCtx → Except String JValue)
    (hcond : ¬(cur = wf.endNode ∨ maxIter ≤ iters))
    (hnode : nodeFind wf.nodes cur = some node)
    (hexec : executeNode env f node execId outs params config st w = (w₁, st₁, .ok out))
    (hedge : edgeFind wf.edges cur = some (.dyn deid dfrom rule)) :
    (∀ nid : String,
      rule ⟨params, config, .obj (outs.set cur out), st₁, none⟩ = .ok (.str nid) →
      (nodeFind wf.nodes nid).isSome = true →
      traverseLoop env (f + 1) wf execId maxIter cur iters outs params config st w
        = traverseLoop env f wf execId maxIter nid (iters + 1) (outs.set cur out)
            params config st₁ w₁) ∧
    (∀ v : JValue,
      rule ⟨params, config, .obj (outs.set cur out), st₁, none⟩ = .ok v →
      (∀ s : String, v ≠ .str s) →
      (traverseLoop env (f + 1) wf execId maxIter cur iters outs params config st w).err
        = some ("Failed to evaluate dynamic edge '" ++ deid ++
            "': Dynamic edge rule must return a string (node ID), but got: " ++
            jsTypeof v)) ∧
    (∀ nid : String,
      rule ⟨params, config, .obj (outs.set cur out), st₁, none⟩ = .ok (.str nid) →
      nodeFind wf.nodes nid = none →
      (traverseLoop env (f + 1) wf execId maxIter cur iters outs params config st w).err
        = some ("Dynamic edge '" ++ deid ++ "' returned invalid node ID '" ++ nid ++
            "'. Node does not exist in workflow.")) := by
  have hncur : ¬(cur = wf.endNode) := fun hc => hcond (Or.inl hc)
  refine ⟨?_, ?_, ?_⟩
  · intro nid hr hsome
    simp only [traverseLoop, if_neg hcond, hnode, hexec, if_neg hncur, hedge,
      evaluateDynamicEdge, hr, hsome, if_pos]
  · intro v hr hns
    cases v with
    | str s => exact absurd rfl (hns s)
    | undef =>
      simp only [traverseLoop, if_neg hcond, hnode, hexec, if_neg hncur, hedge,
        evaluateDynamicEdge, hr]
    | null =>
      simp only [traverseLoop, if_neg hcond, hnode, hexec, if_neg hncur, hedge,
        evaluateDynamicEdge, hr]
    | bool b =>
      simp only [traverseLoop, if_neg hcond, hnode, hexec, if_neg hncur, hedge,
        evaluateDynamicEdge, hr]
    | num n =>
      simp only [traverseLoop, if_neg hcond, hnode, hexec, if_neg hncur, hedge,
        evaluateDynamicEdge, hr]
    | arr xs =>
      simp only [traverseLoop, if_neg hcond, hnode, hexec, if_neg hncur, hedge,
        evaluateDynamicEdge, hr]
    | obj o =>
      simp only [traverseLoop, if_neg hcond, hnode, hexec, if_neg hncur, hedge,
        evaluateDynamicEdge, hr]
  · intro nid hr hnone
    simp only [traverseLoop, if_neg hcond, hnode, hexec, if_neg hncur, hedge,
      evaluateDynamicEdge, hr, hnone, Option.isSome_none, Bool.false_eq_true, if_false]

/-- The dynamic-edge rule of the C7 witness workflow: always route to `b`. -/
def routeToB : RuleCtx → Except String JValue := fun _ => .ok (.str "b")

/-- C7 witness workflow: `a --dyn--> b`, both nodes of the constant executor. -/
def wfC7 : Workflow :=
  { id := "w7", name := "Dyn", parameterSchema := jobj [],
    nodes := [⟨"a", "const_a", jobj [], []⟩, ⟨"b", "const_a", jobj [], []⟩],
    edges := [.dyn "d1" "a" routeToB],
    startNode := "a", endNode := "b", state := none, maxIterations := some 10,
    defaultConfigId := "d" }

/-- World after the C7 witness step: one completed node-execution record. -/
def w1C7 : World := ⟨[], [⟨1, 0, "a", .completed, some (.num 7), none⟩], 2⟩

/-- C7 (witness): on `wfC7` the dynamic edge routes the traversal from `a`
to the existing node `b`, continuing the loop there. -/
theorem c7_dynamic_edge_witness :
    traverseLoop demoEnv 2 wfC7 0 10 "a" 0 .nil (jobj []) (jobj []) .nil emptyWorld
      = traverseLoop demoEnv 1 wfC7 0 10 "b" 1 (JObj.nil.set "a" (.num 7))
          (jobj []) (jobj []) .nil w1C7 :=
  (c7_dynamic_edge demoEnv 1 wfC7 0 10 0 "a" .nil (jobj []) (jobj []) .nil emptyWorld
      ⟨"a", "const_a", jobj [], []⟩ w1C7 .nil (.num 7) "d1" "a" routeToB
      (by decide) rfl rfl rfl).1 "b" rfl rfl

/-- C6: a workflow with `maxIterations = 1`, distinct start and end nodes,
and a single static edge from start to end fails with `Workflow execution
exceeded maximum iterations (1). This might indicate an infinite loop in
your workflow.`; the execution record is marked `failed` with that message,
and the end node is never executed — even though the traversal did reach the
end node before the post-loop bound check. -/
theorem c6_iteration_limit
    (env : Env) (g' : Nat) (wf : Workflow) (nA nB : Node) (eid : String)
    (exec : ExecRec) (w w₁ : World) (st₁ : JObj) (v : JValue)
    (hnodes : wf.nodes = [nA, nB])
    (hA : nA.id = wf.startNode)
    (hB : nB.id = wf.endNode)
    (hne : wf.startNode ≠ wf.endNode)
    (hedges : wf.edges = [.static eid wf.startNode wf.endNode])
    (hmax : wf.maxIterations = some 1)
    (hlt : exec.id < w.nextId)
    (hexec : executeNode env (g' + 1) nA exec.id .nil exec.parameters
      (jOr exec.config (.obj .nil)) (initState wf) w = (w₁, st₁, .ok v)) :
    (execute env (g' + 1 + 1 + 1 + 1) wf exec w).2.2
      = .error ("Workflow execution exceeded maximum iterations (1). " ++
          "This might indicate an infinite loop in your workflow.") ∧
    (∀ r ∈ (execute env (g' + 1 + 1 + 1 + 1) wf exec w).1.execs, r.id = exec.id →
      r.status = .failed ∧
      r.error = some ("Workflow execution exceeded maximum iterations (1). " ++
        "This might indicate an infinite loop in your workflow.")) ∧
    (execute env (g' + 1 + 1 + 1 + 1) wf exec w).1.execNodeCount exec.id wf.endNode
      = w.execNodeCount exec.id wf.endNode := by
  have hne' : wf.endNode ≠ wf.startNode := fun h => hne h.symm
  have hnfA : nodeFind wf.nodes wf.startNode = some nA := by
    simp only [nodeFind, hnodes]
    rw [show ([nA, nB] : List Node).reverse = [nB, nA] from rfl]
    simp [List.find?, hB, hA, hne']
  have hedgeF : edgeFind wf.edges wf.startNode
      = some (.static eid wf.startNode wf.endNode) := by
    simp only [edgeFind, hedges]
    rw [show ([Edge.static eid wf.startNode wf.endNode]).reverse
        = [Edge.static eid wf.startNode wf.endNode] from rfl]
    simp [List.find?, Edge.efrom]
  have hval : validateWorkflow wf = none := by
    simp only [validateWorkflow, validateGraph, hnodes, hedges]
    rw [show ([nA, nB].map fun n => n.id) = [wf.startNode, wf.endNode] from by
      rw [← hA, ← hB]; rfl]
    rw [if_neg (by simp), if_neg (by simp)]
    simp only [edgeRefError, Edge.efrom, Edge.eid]
    rw [if_neg (by simp), if_neg (by simp)]
    simp [multiEdgeError, List.count_cons, List.find?]
  have hmeff : effectiveMaxIterations wf = 1 := by
    simp [effectiveMaxIterations, hmax]
  have hc1 : ¬(wf.startNode = wf.endNode ∨ (1 : Nat) ≤ 0) := by
    rintro (h | h)
    · exact hne h
    · omega
  have hloopInner : traverseLoop env (g' + 1) wf exec.id 1 wf.endNode 1
      ((JObj.nil).set wf.startNode v) exec.parameters (jOr exec.config (.obj .nil))
      st₁ w₁ = ⟨w₁, st₁, (JObj.nil).set wf.startNode v, wf.endNode, 1, none⟩ := by
    simp only [traverseLoop]
    simp
  have hloop : traverseLoop env (g' + 1 + 1) wf exec.id 1 wf.startNode 0 .nil
      exec.parameters (jOr exec.config (.obj .nil)) (initState wf) w
      = ⟨w₁, st₁, (JObj.nil).set wf.startNode v, wf.endNode, 1, none⟩ := by
    simp only [traverseLoop, if_neg hc1, hnfA, hexec, if_neg hne, hedgeF,
      Nat.zero_add, hloopInner]
    simp
  have htrav : executeWorkflowTraversal env (g' + 1 + 1 + 1) wf exec.id
      exec.parameters (jOr exec.config (.obj .nil)) w
      = ⟨w₁, st₁,
          .error ("Workflow execution exceeded maximum iterations (1). " ++
            "This might indicate an infinite loop in your workflow."), 1⟩ := by
    simp only [executeWorkflowTraversal, hmeff, hloop]
    rfl
  have hwf : executeWorkflow env (g' + 1 + 1 + 1 + 1) wf exec.id exec.parameters
      (jOr exec.config (.obj .nil)) w
      = (w₁, st₁,
          .error ("Workflow execution exceeded maximum iterations (1). " ++
            "This might indicate an infinite loop in your workflow.")) := by
    simp only [executeWorkflow, hval, htrav]
  have hex : execute env (g' + 1 + 1 + 1 + 1) wf exec w
      = (w₁.updateExecFailed exec.id
          ("Workflow execution exceeded maximum iterations (1). " ++
            "This might indicate an infinite loop in your workflow."), st₁,
          .error ("Workflow execution exceeded maximum iterations (1). " ++
            "This might indicate an infinite loop in your workflow.")) := by
    simp only [execute, hwf]
  refine ⟨by rw [hex], ?_, ?_⟩
  · rw [hex]
    exact updateExecFailed_mem w₁ exec.id _
  · rw [hex]
    have hcount := ((orchEffects (g' + 1)).1 env nA exec.id .nil exec.parameters
      (jOr exec.config (.obj .nil)) (initState wf) w w₁ st₁ (.ok v) hexec).2.1
      (by omega) exec.id wf.endNode hlt
    rw [if_neg (fun hc => hne ((hc.2.trans hA).symm))] at hcount
    calc (w₁.updateExecFailed exec.id _).execNodeCount exec.id wf.endNode
        = w₁.execNodeCount exec.id wf.endNode := rfl
    _ = w.execNodeCount exec.id wf.endNode + 0 := hcount
    _ = w.execNodeCount exec.id wf.endNode := by omega

/-- C6 witness workflow: `a → b` statically, `maxIterations = 1`. -/
def wfC6 : Workflow :=
  { id := "w6", name := "Lim", parameterSchema := jobj [],
    nodes := [⟨"a", "const_a", jobj [], []⟩, ⟨"b", "const_a", jobj [], []⟩],
    edges := [.static "e" "a" "b"],
    startNode := "a", endNode := "b", state := none, maxIterations := some 1,
    defaultConfigId := "d" }

/-- World after the C6 witness executes node `a`. -/
def w1C6 : World :=
  ⟨[mkExec 0 "w6"], [⟨1, 0, "a", .completed, some (.num 7), none⟩], 2⟩

/-- C6 (witness): on `wfC6` the execution fails with the iteration-limit
message. -/
theorem c6_iteration_limit_witness :
    (execute demoEnv 4 wfC6 (mkExec 0 "w6") (world1 "w6")).2.2
      = .error ("Workflow execution exceeded maximum iterations (1). " ++
          "This might indicate an infinite loop in your workflow.") :=
  (c6_iteration_limit demoEnv 0 wfC6 ⟨"a", "const_a", jobj [], []⟩
    ⟨"b", "const_a", jobj [], []⟩ "e" (mkExec 0 "w6") (world1 "w6") w1C6 .nil
    (.num 7) rfl rfl rfl (by decide) rfl rfl (by decide) rfl).1

lemma effectiveMaxIterations_pos (wf : Workflow) : 0 < effectiveMaxIterations wf := by
  unfold effectiveMaxIterations
  split <;> omega

/-- C8: a workflow whose start node is its end node executes that node
exactly once, via the post-loop reconciliation (the loop exits immediately),
and returns its output; and in general every successful run of
`executeWorkflow` creates exactly one node-execution record for the end node
of its execution. -/
theorem c8_end_once :
    (∀ (env : Env) (g' : Nat) (wf : Workflow) (node : Node) (e : Nat)
      (params config : JValue) (w w₁ : World) (st₁ : JObj) (v : JValue),
      wf.startNode = wf.endNode →
      wf.edges = [] →
      nodeFind wf.nodes wf.startNode = some node →
      e < w.nextId →
      executeNode env (g' + 1) node e .nil params config (initState wf) w
        = (w₁, st₁, .ok v) →
      executeWorkflow env (g' + 1 + 1 + 1) wf e params config w
        = (w₁.updateExecCompleted e v, st₁, .ok v) ∧
      (executeWorkflow env (g' + 1 + 1 + 1) wf e params config w).1.execNodeCount
          e wf.endNode = w.execNodeCount e wf.endNode + 1) ∧
    (∀ fuel env wf e params config w w' st' v,
      executeWorkflow env fuel wf e params config w = (w', st', .ok v) →
      e < w.nextId →
      w'.execNodeCount e wf.endNode = w.execNodeCount e wf.endNode + 1) := by
  constructor
  · intro env g' wf node e params config w w₁ st₁ v hse hedges hnf hlt hexec
    have hnf' : wf.nodes.reverse.find? (fun n => decide (n.id = wf.startNode))
        = some node := hnf
    have hmem : node ∈ wf.nodes := List.mem_reverse.mp (List.mem_of_find?_eq_some hnf')
    have hid : node.id = wf.startNode := by
      have := List.find?_some hnf'
      simpa using this
    have hsm : wf.startNode ∈ wf.nodes.map (fun n => n.id) :=
      List.mem_map.mpr ⟨node, hmem, hid⟩
    have hval : validateWorkflow wf = none := by
      simp only [validateWorkflow, validateGraph, hedges]
      rw [if_neg (not_not_intro hsm), if_neg (not_not_intro (hse ▸ hsm))]
      rfl
    have hnle : ¬(effectiveMaxIterations wf ≤ 0) := by
      have := effectiveMaxIterations_pos wf
      omega
    have hloop : traverseLoop env (g' + 1) wf e (effectiveMaxIterations wf)
        wf.startNode 0 .nil params config (initState wf) w
        = ⟨w, initState wf, .nil, wf.startNode, 0, none⟩ := by
      simp only [traverseLoop]
      rw [if_pos (Or.inl hse)]
    have hfind : ((JObj.nil.set wf.startNode v).find? wf.endNode) = some v := by
      rw [← hse]
      simp [JObj.set, JObj.find?]
    have hcond : wf.startNode = wf.endNode ∧ ((JObj.nil).find? wf.startNode).isNone :=
      ⟨hse, rfl⟩
    have htrav : executeWorkflowTraversal env (g' + 1 + 1) wf e params config w
        = ⟨w₁, st₁, .ok v, 0⟩ := by
      simp only [executeWorkflowTraversal, hloop, if_neg hnle, if_pos hcond, hnf,
        hexec, hfind]
      rfl
    have hwf : executeWorkflow env (g' + 1 + 1 + 1) wf e params config w
        = (w₁.updateExecCompleted e v, st₁, .ok v) := by
      simp only [executeWorkflow, hval, htrav]
    refine ⟨hwf, ?_⟩
    rw [hwf]
    have hcount := ((orchEffects (g' + 1)).1 env node e .nil params config
      (initState wf) w w₁ st₁ (.ok v) hexec).2.1 (by omega) e wf.endNode hlt
    rw [if_pos ⟨rfl, (hid.trans hse).symm⟩] at hcount
    calc (w₁.updateExecCompleted e v).execNodeCount e wf.endNode
        = w₁.execNodeCount e wf.endNode := rfl
    _ = w.execNodeCount e wf.endNode + 1 := hcount
  · intro fuel env wf e params config w w' st' v h hlt
    exact ((orchEffects fuel).2.2.2.1 env wf e params config w w' st' (.ok v) h).2.2.2
      v rfl hlt

/-- C8 witness workflow: a single node that is both start and end, no edges. -/
def wfC8 : Workflow :=
  { id := "w8", name := "One", parameterSchema := jobj [],
    nodes := [⟨"n", "const_a", jobj [], []⟩], edges := [],
    startNode := "n", endNode := "n", state := none, maxIterations := some 10,
    defaultConfigId := "d" }

/-- World after the C8 witness run: the single node executed once. -/
def w8C8 : World := ⟨[], [⟨1, 0, "n", .completed, some (.num 7), none⟩], 2⟩

/-- C8 (witness): the successful run of `wfC8` creates exactly one
node-execution record for its end node. -/
theorem c8_end_once_witness :
    w8C8.execNodeCount 0 wfC8.endNode = emptyWorld.execNodeCount 0 wfC8.endNode + 1 :=
  c8_end_once.2 4 demoEnv wfC8 0 (jobj []) (jobj []) emptyWorld w8C8 .nil (.num 7)
    (by decide) (by decide)
